import Mathlib

/-!
Verification development for the spreadsheet-backed booking storage engine
(`excel_ops.py`): date-span splitting, page/row/column location, availability
checking, transactional book/cancel, durability-layer validation, and the
booking-log query layer, shallowly embedded as executable Lean definitions.
-/

set_option maxRecDepth 4000

deriving instance DecidableEq for Except

namespace ExcelOps

/-! ## Calendar dates (`datetime.date`) -/

/-- A calendar date, as in Python's `datetime.date` (year/month/day). -/
structure Date where
  year : Nat
  month : Nat
  day : Nat
deriving DecidableEq, Repr

/-- Leap-year test of Python's `calendar.isleap`. -/
def isleap (year : Nat) : Bool :=
  year % 4 == 0 && (year % 100 != 0 || year % 400 == 0)

/-- `calendar.monthrange(year, month)[1]`: the number of days in the month. -/
def monthrange (year month : Nat) : Nat :=
  let mdays := [0, 31, 28, 31, 30, 31, 30, 31, 31, 30, 31, 30, 31]
  (mdays.getD month 0) + (if month == 2 && isleap year then 1 else 0)

/-- A `Date` that `datetime.date` would accept (Python bounds years to
    1..9999; days are bounded by the month length). -/
def validDate (d : Date) : Prop :=
  1 ≤ d.year ∧ d.year ≤ 9999 ∧ 1 ≤ d.month ∧ d.month ≤ 12 ∧
    1 ≤ d.day ∧ d.day ≤ monthrange d.year d.month

instance (d : Date) : Decidable (validDate d) := by
  unfold validDate; infer_instance

/-- Linear index of a (year, month) pair, used to order months. -/
def monthIndex (year month : Nat) : Nat := year * 12 + month

/-- Date order of `datetime.date` (lexicographic on year, month, day). -/
def dateLe (a b : Date) : Prop :=
  a.year < b.year ∨ (a.year = b.year ∧ a.month < b.month) ∨
    (a.year = b.year ∧ a.month = b.month ∧ a.day ≤ b.day)

instance (a b : Date) : Decidable (dateLe a b) := by
  unfold dateLe; infer_instance

/-! ## Date-Span Splitter (`_iter_month_ranges`)

The Python generator loops from the start month to the end month.  We embed
it with explicit fuel (the number of loop iterations left); the driver
supplies enough fuel to reach the end month, which is exactly the number of
months overlapped when `start ≤ end`.  (On `start > end` in month order the
Python generator never terminates; the embedding returns a truncated list.) -/

def iterMonthRangesAux (startDate endDate : Date) :
    Nat → Nat → Nat → List (Date × Date)
  | 0, _, _ => []
  | fuel + 1, curYear, curMonth =>
    let lastDay := monthrange curYear curMonth
    let spanStart :=
      if curYear = startDate.year ∧ curMonth = startDate.month then startDate
      else ⟨curYear, curMonth, 1⟩
    let spanEnd :=
      if curYear = endDate.year ∧ curMonth = endDate.month then endDate
      else ⟨curYear, curMonth, lastDay⟩
    (spanStart, spanEnd) ::
      (if curYear = endDate.year ∧ curMonth = endDate.month then []
       else if curMonth = 12 then
         iterMonthRangesAux startDate endDate fuel (curYear + 1) 1
       else
         iterMonthRangesAux startDate endDate fuel curYear (curMonth + 1))

/-- `_iter_month_ranges(start_date, end_date)`: the per-month spans of
    `[start_date, end_date]`, one pair per calendar month touched. -/
def iterMonthRanges (startDate endDate : Date) : List (Date × Date) :=
  iterMonthRangesAux startDate endDate
    (monthIndex endDate.year endDate.month + 1 -
      monthIndex startDate.year startDate.month)
    startDate.year startDate.month

/-! ## Cell values

A cell of the workbook holds `None` (modelled `Option.none`) or a Python
value: `int`, `float` (finite floats embedded as rationals), `date`, `str`,
or some other object (`otherV`). -/

inductive Value where
  | intV (n : Int)
  | floatV (q : ℚ)
  | dateV (d : Date)
  | strV (s : String)
  | otherV
deriving DecidableEq, Repr

/-- Python `==` between two non-`None` values (numeric cross-type equality;
    distinct non-numeric types compare unequal). -/
def pyEq : Value → Value → Bool
  | .intV a, .intV b => a == b
  | .intV a, .floatV b => (a : ℚ) == b
  | .floatV a, .intV b => a == (b : ℚ)
  | .floatV a, .floatV b => a == b
  | .strV a, .strV b => a == b
  | .dateV a, .dateV b => a == b
  | _, _ => false

/-- Python `==` between possibly-`None` cell values (`None == None` is true). -/
def pyEqOpt : Option Value → Option Value → Bool
  | none, none => true
  | some a, some b => pyEq a b
  | _, _ => false

/-- Python truthiness of a cell value (`if name:`). -/
def truthy : Option Value → Bool
  | none => false
  | some (.strV s) => !s.isEmpty
  | some (.intV n) => n != 0
  | some (.floatV q) => q != 0
  | some (.dateV _) => true
  | some .otherV => true

/-- Python `str(date)` / `strftime("%Y-%m-%d")`: ISO date string with
    zero-padded month and day. -/
def pad2 (n : Nat) : String :=
  if n < 10 then "0" ++ Nat.repr n else Nat.repr n

def dateToStr (d : Date) : String :=
  Nat.repr d.year ++ "-" ++ pad2 d.month ++ "-" ++ pad2 d.day

/-- Python `str(value)` for the values a cell can hold.  Exact for strings,
    ints and dates; the rendering of floats and generic objects is
    abstracted (device-name cells hold strings in the layout). -/
def Value.pyStr : Value → String
  | .strV s => s
  | .intV n => toString n
  | .floatV q => toString q
  | .dateV d => dateToStr d
  | .otherV => "<object>"

/-! ## Sheets and workbooks (openpyxl fragment)

A sheet is a grid addressed by 1-based (row, column); `maxRow`/`maxCol`
mirror openpyxl's `max_row`/`max_column` (writing a cell extends them). -/

structure Sheet where
  maxRow : Nat
  maxCol : Nat
  cell : Nat → Nat → Option Value

/-- `sheet.cell(row=r, column=c, value=v)`: set a cell, extending the
    sheet's dimensions as openpyxl does. -/
def Sheet.setCell (s : Sheet) (r c : Nat) (v : Option Value) : Sheet :=
  { maxRow := max s.maxRow r
    maxCol := max s.maxCol c
    cell := fun r' c' => if r' = r ∧ c' = c then v else s.cell r' c' }

/-- A freshly created sheet (`wb.create_sheet`): empty, dimensions 1×1. -/
def Sheet.empty : Sheet := ⟨1, 1, fun _ _ => none⟩

structure Workbook where
  sheets : List (String × Sheet)

def Workbook.sheetnames (wb : Workbook) : List String := wb.sheets.map (·.1)

/-- `wb[name]` / `name in wb.sheetnames`: look a sheet up by name. -/
def Workbook.findSheet (wb : Workbook) (name : String) : Option Sheet :=
  (wb.sheets.find? (fun p => p.1 == name)).map (·.2)

/-- Replace the sheet stored under `name` (no-op if absent). -/
def Workbook.setSheet (wb : Workbook) (name : String) (s : Sheet) : Workbook :=
  ⟨wb.sheets.map (fun p => if p.1 == name then (p.1, s) else p)⟩

/-- Append a new sheet at the end (`wb.create_sheet`). -/
def Workbook.addSheet (wb : Workbook) (name : String) (s : Sheet) : Workbook :=
  ⟨wb.sheets ++ [(name, s)]⟩

/-- Python `range(a, b)`. -/
def pyRange (a b : Nat) : List Nat := List.range' a (b - a)

/-- Python `s.startswith(t)` over code points. -/
def pyStartsWith (s t : String) : Bool := t.data.isPrefixOf s.data

/-! ## Page Locator -/

/-- `_get_month_sheet_name`: sheet name `'yy年M月'` built from the last two
    characters of the decimal year (`str(year)[-2:]`) and the month. -/
def yearShort (y : Nat) : String :=
  let s := Nat.repr y
  s.drop (s.length - 2)

def monthSheetName (d : Date) : String :=
  yearShort d.year ++ "年" ++ Nat.repr d.month ++ "月"

/-- `_find_device_row`: first row from 9 to `max_row` whose column-B cell
    compares `==` to the device name. -/
def findDeviceRow (sheet : Sheet) (deviceName : Option Value) : Option Nat :=
  (pyRange 9 (sheet.maxRow + 1)).find?
    (fun r => pyEqOpt (sheet.cell r 2) deviceName)

/-- `_iter_device_rows`: `(row, str(name))` for each truthy column-B cell
    from row 9. -/
def iterDeviceRows (sheet : Sheet) : List (Nat × String) :=
  (pyRange 9 (sheet.maxRow + 1)).filterMap
    (fun r =>
      if truthy (sheet.cell r 2) then
        match sheet.cell r 2 with
        | some v => some (r, v.pyStr)
        | none => none
      else none)

/-! ## Header-day normalisation (`_normalize_header_day`) -/

def isAsciiDigit (c : Char) : Bool := 48 ≤ c.toNat && c.toNat ≤ 57

def digitVal (c : Char) : Nat := c.toNat - 48

/-- The fragment of `unicodedata.normalize("NFKC", ·)` relevant to day
    headers: full-width digits U+FF10–U+FF19 fold to ASCII digits; other
    characters are left unchanged. -/
def nfkcDigitFold (c : Char) : Char :=
  if 0xFF10 ≤ c.toNat ∧ c.toNat ≤ 0xFF19 then
    Char.ofNat (c.toNat - 0xFF10 + 48)
  else c

/-- Python `str.strip()` (whitespace fragment). -/
def stripChars (l : List Char) : List Char :=
  ((l.dropWhile Char.isWhitespace).reverse.dropWhile Char.isWhitespace).reverse

/-- `re.search(r"(\d{1,2})", s)`: the first run of one or two digits, as a
    number (a third adjacent digit is not consumed). -/
def firstDigitRun : List Char → Option Nat
  | [] => none
  | c :: rest =>
    if isAsciiDigit c then
      match rest with
      | c2 :: _ =>
        if isAsciiDigit c2 then some (digitVal c * 10 + digitVal c2)
        else some (digitVal c)
      | [] => some (digitVal c)
    else firstDigitRun rest

/-- `_normalize_header_day`: int and float (truncated toward zero) pass
    through, dates map to their day-of-month, strings are NFKC-folded,
    stripped, and searched for the first 1–2 digit run; anything else
    (including an empty cell) yields `none`. -/
def normalizeHeaderDay : Option Value → Option Int
  | some (.intV n) => some n
  | some (.floatV q) => some (if 0 ≤ q then ⌊q⌋ else -⌊-q⌋)
  | some (.dateV d) => some (d.day : Int)
  | some (.strV s) =>
    (firstDigitRun (stripChars (s.data.map nfkcDigitFold))).map Int.ofNat
  | _ => none

/-! ## Errors

Structured counterparts of the exceptions raised by the engine; each
lookup failure carries the missing key, as the Python messages do. -/

inductive ExcelErr where
  /-- `ValueError("シートが見つかりません: …")` -/
  | sheetNotFound (name : String)
  /-- `ValueError("デモ機が見つかりません: …")` -/
  | deviceNotFound (device : Option Value)
  /-- `ValueError("日付が見つかりません: …")` -/
  | dayNotFound (day : Nat)
  /-- `ValueError("予約IDが見つかりません: …")` -/
  | bookingNotFound (bookingId : String)
  /-- `ValueError("指定された期間にデモ機 '…' は既に予約されています")` -/
  | conflict (device : String)
  /-- `ValueError` from `datetime.strptime` on a malformed log date. -/
  | parseError
  /-- `IOError("ファイル保存に失敗しました。バックアップから復旧しました。")` -/
  | persistence
deriving DecidableEq, Repr

/-- `_get_date_column`: search header row 8 (columns 3..`max_column`) for a
    cell normalising to `day`. -/
def findHeaderIn (sheet : Sheet) (hdrRow : Nat) (day : Nat) : Option Nat :=
  (pyRange 3 (sheet.maxCol + 1)).find?
    (fun c => normalizeHeaderDay (sheet.cell hdrRow c) == some (day : Int))

/-- Fallback scan of `_get_date_column` over header rows 7, 9, 10 (only
    those within `max_row`). -/
def getDateColumnFallback (sheet : Sheet) (day : Nat) : List Nat → Option Nat
  | [] => none
  | h :: t =>
    if h ≤ sheet.maxRow then
      match findHeaderIn sheet h day with
      | some c => some c
      | none => getDateColumnFallback sheet day t
    else getDateColumnFallback sheet day t

/-- `_get_date_column`: primary search in row 8, then fallback rows
    7, 9, 10. -/
def getDateColumn (sheet : Sheet) (day : Nat) : Option Nat :=
  match findHeaderIn sheet 8 day with
  | some c => some c
  | none => getDateColumnFallback sheet day [7, 9, 10]

def getDateColumnsAux (sheet : Sheet) : List Nat → Except ExcelErr (List Nat)
  | [] => .ok []
  | d :: t =>
    match getDateColumn sheet d with
    | none => .error (.dayNotFound d)
    | some c =>
      match getDateColumnsAux sheet t with
      | .error e => .error e
      | .ok cs => .ok (c :: cs)

/-- `_get_date_columns`: column indices for the days
    `m_start.day .. m_end.day`, failing on the first unresolved day. -/
def getDateColumns (sheet : Sheet) (mStart mEnd : Date) :
    Except ExcelErr (List Nat) :=
  getDateColumnsAux sheet (pyRange mStart.day (mEnd.day + 1))

/-! ## Availability Engine -/

/-- The per-span loop body of `check_availability`: resolve page, device
    row and columns, then return `false` at the first non-empty cell. -/
def checkSpans (wb : Workbook) (deviceName : String) :
    List (Date × Date) → Except ExcelErr Bool
  | [] => .ok true
  | (ms, me) :: rest =>
    match wb.findSheet (monthSheetName ms) with
    | none => .error (.sheetNotFound (monthSheetName ms))
    | some sheet =>
      match findDeviceRow sheet (some (.strV deviceName)) with
      | none => .error (.deviceNotFound (some (.strV deviceName)))
      | some row =>
        match getDateColumns sheet ms me with
        | .error e => .error e
        | .ok cols =>
          if cols.any (fun c => (sheet.cell row c).isSome) then .ok false
          else checkSpans wb deviceName rest

/-- `check_availability(excel_path, device_name, start_date, end_date)`. -/
def check_availability (wb : Workbook) (deviceName : String)
    (startDate endDate : Date) : Except ExcelErr Bool :=
  checkSpans wb deviceName (iterMonthRanges startDate endDate)

/-- The per-candidate availability loop of `find_available_device`: like
    `check_availability`, but looking up the candidate by the string
    produced by `_iter_device_rows`. -/
def evalCandidate (wb : Workbook) (devName : String) :
    List (Date × Date) → Except ExcelErr Bool
  | [] => .ok true
  | (ms, me) :: rest =>
    match wb.findSheet (monthSheetName ms) with
    | none => .error (.sheetNotFound (monthSheetName ms))
    | some sheet =>
      match findDeviceRow sheet (some (.strV devName)) with
      | none => .error (.deviceNotFound (some (.strV devName)))
      | some row =>
        match getDateColumns sheet ms me with
        | .error e => .error e
        | .ok cols =>
          if cols.any (fun c => (sheet.cell row c).isSome) then .ok false
          else evalCandidate wb devName rest

def findFirstAvailable (wb : Workbook) (spans : List (Date × Date)) :
    List String → Except ExcelErr (Option String)
  | [] => .ok none
  | dev :: rest =>
    match evalCandidate wb dev spans with
    | .error e => .error e
    | .ok true => .ok (some dev)
    | .ok false => findFirstAvailable wb spans rest

/-- The candidate list of `find_available_device`: device names on the
    start month's sheet whose name starts with `device_type`, in page row
    order. -/
def candidatesList (startSheet : Sheet) (deviceType : String) : List String :=
  (iterDeviceRows startSheet).filterMap
    (fun p => if pyStartsWith p.2 deviceType then some p.2 else none)

/-- `find_available_device(excel_path, device_type, start_date, end_date)`:
    candidates are the device names on the start month's sheet whose name
    starts with `device_type`, in row order; the first fully available one
    is returned. -/
def find_available_device (wb : Workbook) (deviceType : String)
    (startDate endDate : Date) : Except ExcelErr (Option String) :=
  match wb.findSheet (monthSheetName startDate) with
  | none => .error (.sheetNotFound (monthSheetName startDate))
  | some startSheet =>
    findFirstAvailable wb (iterMonthRanges startDate endDate)
      (candidatesList startSheet deviceType)

/-! ## Durability Layer (`_safe_save_workbook` + `_validate_or_restore`)

The filesystem-level facts the validator inspects (archive integrity of the
saved bytes, whether the saved file re-opens, the pre/post sizes, whether a
backup exists, whether a restore copy would succeed) are abstracted into a
`SaveEnv`; the saved document's sheet names are taken from the workbook
that was saved. -/

structure SaveEnv where
  /-- The saved archive has `[Content_Types].xml` and `xl/workbook.xml`
      and passes `testzip` (and opening the archive did not raise). -/
  zipOk : Bool
  /-- `openpyxl.load_workbook` on the saved file succeeds. -/
  loadOk : Bool
  /-- Size of the file before the save (`None` if it did not exist). -/
  preSize : Option Nat
  /-- Size of the file after the save. -/
  postSize : Nat
  /-- A backup copy was made and still exists (`bak_path` non-`None`). -/
  bakExists : Bool
  /-- The `shutil.copy2` restore from the backup succeeds. -/
  restoreOk : Bool
deriving DecidableEq, Repr

/-- `_RATIO_LIMIT` under the default configuration
    (`EXCEL_SIZE_DIFF_RATIO` unset): `0.5`, kept as an exact fraction
    `ratioLimitNum / ratioLimitDen`. -/
def ratioLimitNum : Nat := 1

def ratioLimitDen : Nat := 2

/-- Default `min_size_bytes` of `_validate_or_restore`. -/
def minSizeBytes : Nat := 4096

/-- The size-ratio test `abs(post - pre) / max(pre, 1) <= _RATIO_LIMIT`,
    written in exact cross-multiplied integer arithmetic (the division is
    exact in the source up to float rounding). -/
def sizeRatioOk (pre post : Nat) : Bool :=
  ratioLimitDen * Nat.dist post pre ≤ ratioLimitNum * max pre 1

/-- The validation verdict of `_validate_or_restore`: archive-structure
    check, expected-sheet presence on re-open, size-change ratio against
    the ratio limit, and the minimum-size floor. -/
def validateOk (savedWb : Workbook) (env : SaveEnv) (expected : List String) :
    Bool :=
  if !env.zipOk then false
  else
    (env.loadOk && expected.all (fun s => savedWb.sheetnames.contains s))
    && (match env.preSize with
        | some pre => sizeRatioOk pre env.postSize
        | none => true)
    && decide (minSizeBytes ≤ env.postSize)

/-- Outcome of a mutating operation: the returned value or error, the
    resulting on-disk document, whether a backup restore was attempted,
    and the list of workbook states handed to `_safe_save_workbook`
    (one entry per save performed). -/
structure WriteResult (α : Type) where
  outcome : Except ExcelErr α
  disk : Workbook
  restoreAttempted : Bool
  savedDocs : List Workbook

/-- The save-validate-restore tail shared by `book` and `cancel`: save
    `wb` over `disk`, validate, and on failure attempt one best-effort
    restore from the backup (its own failure swallowed) before raising
    the persistence error. -/
def saveAndValidate (disk wb : Workbook) (expected : List String)
    (env : SaveEnv) (ret : α) : WriteResult α :=
  if validateOk wb env expected then ⟨.ok ret, wb, false, [wb]⟩
  else
    ⟨.error .persistence,
      if env.bakExists && env.restoreOk then disk else wb,
      env.bakExists, [wb]⟩

/-! ## Transactional Writer (`book`) -/

structure UserInfo where
  name : String
  extensionNum : String
  employeeId : String
deriving DecidableEq, Repr

/-- The pre-lock availability check of `book` (lines 592–594): raise the
    conflict error when `check_availability` returns false. -/
def bookCheck (disk : Workbook) (deviceName : String) (sd ed : Date) :
    Except ExcelErr Unit :=
  match check_availability disk deviceName sd ed with
  | .error e => .error e
  | .ok true => .ok ()
  | .ok false => .error (.conflict deviceName)

/-- The marking loop of `book`: per span, resolve the page, device row and
    columns and write the booking marker into every resolved cell. -/
def markSpans (wb : Workbook) (deviceName marker : String) :
    List (Date × Date) → Except ExcelErr Workbook
  | [] => .ok wb
  | (ms, me) :: rest =>
    match wb.findSheet (monthSheetName ms) with
    | none => .error (.sheetNotFound (monthSheetName ms))
    | some sheet =>
      match findDeviceRow sheet (some (.strV deviceName)) with
      | none => .error (.deviceNotFound (some (.strV deviceName)))
      | some row =>
        match getDateColumns sheet ms me with
        | .error e => .error e
        | .ok cols =>
          markSpans
            (wb.setSheet (monthSheetName ms)
              (cols.foldl (fun s c => s.setCell row c (some (.strV marker)))
                sheet))
            deviceName marker rest

/-- The header row written into a freshly created `'予約ログ'` sheet. -/
def logHeaderSheet : Sheet :=
  ((((((((Sheet.empty.setCell 1 1 (some (.strV "予約ID"))).setCell 1 2
    (some (.strV "予約日時"))).setCell 1 3 (some (.strV "予約者名"))).setCell 1 4
    (some (.strV "内線番号"))).setCell 1 5 (some (.strV "職番"))).setCell 1 6
    (some (.strV "デモ機名"))).setCell 1 7 (some (.strV "予約開始日"))).setCell
    1 8 (some (.strV "予約終了日"))).setCell 1 9 (some (.strV "ステータス"))

/-- `_ensure_booking_log_sheet`: create the `'予約ログ'` sheet with its
    header row if it is missing. -/
def ensureBookingLogSheet (wb : Workbook) : Workbook :=
  if wb.sheetnames.contains "予約ログ" then wb
  else wb.addSheet "予約ログ" logHeaderSheet

/-- The log-append step of `book`: one row at `max_row + 1` with the nine
    log columns. -/
def appendLogRow (wb : Workbook) (bid now deviceName sdStr edStr : String)
    (u : UserInfo) : Workbook :=
  match wb.findSheet "予約ログ" with
  | none => wb
  | some log =>
    let r := log.maxRow + 1
    let log := log.setCell r 1 (some (.strV bid))
    let log := log.setCell r 2 (some (.strV now))
    let log := log.setCell r 3 (some (.strV u.name))
    let log := log.setCell r 4 (some (.strV u.extensionNum))
    let log := log.setCell r 5 (some (.strV u.employeeId))
    let log := log.setCell r 6 (some (.strV deviceName))
    let log := log.setCell r 7 (some (.strV sdStr))
    let log := log.setCell r 8 (some (.strV edStr))
    let log := log.setCell r 9 (some (.strV "予約中"))
    wb.setSheet "予約ログ" log

/-- The expected-sheet set passed to `_validate_or_restore`: the log page
    plus every touched month page (built as a Python `set`; only
    membership is ever tested, so duplicates are harmless). -/
def expectedSheets (sd ed : Date) : List String :=
  "予約ログ" :: (iterMonthRanges sd ed).map (fun p => monthSheetName p.1)

/-- The locked section of `book` (lines 596–648): mark all spans, ensure
    and append the log row, save, validate-or-restore.  The fresh booking
    id and timestamp are passed in (`uuid4`/`datetime.now` abstracted). -/
def bookLocked (disk : Workbook) (deviceName : String) (sd ed : Date)
    (u : UserInfo) (bid now : String) (env : SaveEnv) : WriteResult String :=
  match markSpans disk deviceName ("C:" ++ bid) (iterMonthRanges sd ed) with
  | .error e => ⟨.error e, disk, false, []⟩
  | .ok wb1 =>
    let wb2 := appendLogRow (ensureBookingLogSheet wb1) bid now deviceName
      (dateToStr sd) (dateToStr ed) u
    saveAndValidate disk wb2 (expectedSheets sd ed) env bid

/-- `book(excel_path, device_name, start_date, end_date, user_info)` in the
    default (non-COM) write mode: availability is checked *before* the
    file lock is acquired, then the locked section runs unconditionally. -/
def book (disk : Workbook) (deviceName : String) (sd ed : Date)
    (u : UserInfo) (bid now : String) (env : SaveEnv) : WriteResult String :=
  match bookCheck disk deviceName sd ed with
  | .error e => ⟨.error e, disk, false, []⟩
  | .ok _ => bookLocked disk deviceName sd ed u bid now env

/-! ## Date-string round trip for the log row -/

def parseNatChars (l : List Char) : Option Nat :=
  if l ≠ [] ∧ l.all isAsciiDigit then
    some (l.foldl (fun a c => a * 10 + digitVal c) 0)
  else none

def splitOnDash : List Char → List (List Char)
  | [] => [[]]
  | c :: t =>
    if c = '-' then [] :: splitOnDash t
    else
      match splitOnDash t with
      | g :: gs => (c :: g) :: gs
      | [] => [[c]]

/-- `datetime.strptime(s, "%Y-%m-%d").date()`: split on `'-'`, parse three
    decimal fields, and validate the calendar ranges (`datetime` bounds
    years to 1..9999 and days to the month length). -/
def dateFromStr (s : String) : Option Date :=
  match splitOnDash s.data with
  | [yc, mc, dc] =>
    match parseNatChars yc, parseNatChars mc, parseNatChars dc with
    | some y, some m, some d =>
      if 1 ≤ y ∧ y ≤ 9999 ∧ 1 ≤ m ∧ m ≤ 12 ∧ 1 ≤ d ∧ d ≤ monthrange y m then
        some ⟨y, m, d⟩
      else none
    | _, _, _ => none
  | _ => none

/-! ## Transactional Canceller (`cancel`) -/

/-- The per-column body of the clearing sweep of `cancel`: a column whose
    row-8 header normalises to a day inside the span and whose device-row
    cell holds a string starting with the marker prefix reaches the
    statement `sheet.cell(row=device_row, column=col, value=None)`.
    openpyxl's `Worksheet.cell` assigns the value only when it is not
    `None`, so this statement reads the cell and assigns nothing: every
    branch leaves the sheet unchanged (the loop bounds keep `row` and
    `col` within the existing dimensions, so no dimension growth occurs
    either). -/
def clearStep (row : Nat) (pref : String) (ms me : Date)
    (sh : Sheet) (c : Nat) : Sheet :=
  match normalizeHeaderDay (sh.cell 8 c) with
  | some day =>
    if (ms.day : Int) ≤ day ∧ day ≤ (me.day : Int) then
      match sh.cell row c with
      | some (.strV v) =>
        if pyStartsWith v pref then sh else sh
      | _ => sh
    else sh
  | none => sh

/-- One clearing sweep of `cancel` over a month sheet: every column from 3
    to `max_column` is run through `clearStep`. -/
def clearSpan (sheet : Sheet) (row : Nat) (pref : String) (ms me : Date) :
    Sheet :=
  (pyRange 3 (sheet.maxCol + 1)).foldl (clearStep row pref ms me) sheet

/-- The clearing loop of `cancel` over all spans. -/
def clearSpans (wb : Workbook) (deviceName : Option Value) (pref : String) :
    List (Date × Date) → Except ExcelErr Workbook
  | [] => .ok wb
  | (ms, me) :: rest =>
    match wb.findSheet (monthSheetName ms) with
    | none => .error (.sheetNotFound (monthSheetName ms))
    | some sheet =>
      match findDeviceRow sheet deviceName with
      | none => .error (.deviceNotFound deviceName)
      | some row =>
        clearSpans
          (wb.setSheet (monthSheetName ms) (clearSpan sheet row pref ms me))
          deviceName pref rest

/-- The date-reading step of `cancel`: `datetime.strptime(cell7)` /
    `strptime(cell8)`; any non-string cell or malformed date raises
    (modelled as `none`). -/
def readLogDates (log : Sheet) (row : Nat) : Option (Date × Date) :=
  match log.cell row 7, log.cell row 8 with
  | some (.strV sdStr), some (.strV edStr) =>
    match dateFromStr sdStr, dateFromStr edStr with
    | some sd, some ed => some (sd, ed)
    | _, _ => none
  | _, _ => none

/-- `cancel(excel_path, booking_id)` in the default write mode: find the
    log row, read device and dates back from it, run the clearing sweep
    over all spans (a no-op on cell values, see `clearStep`), then save
    and validate-or-restore — a single sweep and a single save. -/
def cancel (disk : Workbook) (bookingId : String) (env : SaveEnv) :
    WriteResult Unit :=
  match disk.findSheet "予約ログ" with
  | none => ⟨.error (.sheetNotFound "予約ログ"), disk, false, []⟩
  | some log =>
    match (pyRange 2 (log.maxRow + 1)).find?
        (fun r => pyEqOpt (log.cell r 1) (some (.strV bookingId))) with
    | none => ⟨.error (.bookingNotFound bookingId), disk, false, []⟩
    | some bookingRow =>
      match readLogDates log bookingRow with
      | none => ⟨.error .parseError, disk, false, []⟩
      | some (sd, ed) =>
        match clearSpans disk (log.cell bookingRow 6) ("C:" ++ bookingId)
            (iterMonthRanges sd ed) with
        | .error e => ⟨.error e, disk, false, []⟩
        | .ok wb1 =>
          saveAndValidate disk wb1 (expectedSheets sd ed) env ()

/-! ## Query Layer (`list_cancellable_bookings`) -/

structure BookingEntry where
  booking_id : String
  device_name : String
  start_date : String
  end_date : String
deriving DecidableEq, Repr

/-- `str(value or '')`: empty string for falsy values. -/
def pyOrEmptyStr (v : Option Value) : String :=
  if truthy v then
    match v with
    | some x => x.pyStr
    | none => ""
  else ""

def pyStrip (s : String) : String := (stripChars s.data).asString

/-- `str(cell.value or '').strip()`. -/
def cellStrStripped (v : Option Value) : String := pyStrip (pyOrEmptyStr v)

/-- `list_cancellable_bookings(excel_path, user_info)`: log rows with
    status `'予約中'` whose name, extension or employee id matches a
    non-empty field of the caller's identity, in log order. -/
def list_cancellable_bookings (wb : Workbook) (u : UserInfo) :
    List BookingEntry :=
  match wb.findSheet "予約ログ" with
  | none => []
  | some log =>
    (pyRange 2 (log.maxRow + 1)).filterMap
      (fun r =>
        let status := cellStrStripped (log.cell r 9)
        if status ≠ "予約中" then none
        else
          let uname := cellStrStripped (log.cell r 3)
          let uext := cellStrStripped (log.cell r 4)
          let uemp := cellStrStripped (log.cell r 5)
          if (u.name ≠ "" ∧ uname = u.name) ∨
             (u.extensionNum ≠ "" ∧ uext = u.extensionNum) ∨
             (u.employeeId ≠ "" ∧ uemp = u.employeeId) then
            some ⟨cellStrStripped (log.cell r 1),
                  cellStrStripped (log.cell r 6),
                  cellStrStripped (log.cell r 7),
                  cellStrStripped (log.cell r 8)⟩
          else none)

/-! ## Properties of the Date-Span Splitter -/

/-- The span the splitter emits for calendar month `(y, m)`. -/
def spanOfMonth (sd ed : Date) (y m : Nat) : Date × Date :=
  (if y = sd.year ∧ m = sd.month then sd else ⟨y, m, 1⟩,
   if y = ed.year ∧ m = ed.month then ed else ⟨y, m, monthrange y m⟩)

/-- `k` consecutive calendar months starting at `(y, m)`. -/
def monthsFrom (y m : Nat) : Nat → List (Nat × Nat)
  | 0 => []
  | k + 1 =>
    (y, m) :: (if m = 12 then monthsFrom (y + 1) 1 k else monthsFrom y (m + 1) k)

lemma monthsFrom_length (k : Nat) : ∀ y m, (monthsFrom y m k).length = k := by
  induction k with
  | zero => intro y m; rfl
  | succ k ih =>
    intro y m
    unfold monthsFrom
    by_cases h : m = 12 <;> simp [h, ih]

lemma monthsFrom_get? (k : Nat) :
    ∀ y m i, i < k → 1 ≤ m → m ≤ 12 →
      ∃ y' m', (monthsFrom y m k)[i]? = some (y', m') ∧
        monthIndex y' m' = monthIndex y m + i ∧ 1 ≤ m' ∧ m' ≤ 12 := by
  induction k with
  | zero => intro y m i hi; omega
  | succ k ih =>
    intro y m i hi hm1 hm2
    match i with
    | 0 =>
      refine ⟨y, m, ?_, by omega, hm1, hm2⟩
      unfold monthsFrom
      by_cases h : m = 12 <;> simp [h]
    | j + 1 =>
      by_cases h : m = 12
      · obtain ⟨y', m', hg, hidx, h1, h2⟩ :=
          ih (y + 1) 1 j (by omega) (by omega) (by omega)
        refine ⟨y', m', ?_, ?_, h1, h2⟩
        · unfold monthsFrom; simp [h, hg]
        · unfold monthIndex at *; omega
      · obtain ⟨y', m', hg, hidx, h1, h2⟩ :=
          ih y (m + 1) j (by omega) (by omega) (by omega)
        refine ⟨y', m', ?_, ?_, h1, h2⟩
        · unfold monthsFrom; simp [h, hg]
        · unfold monthIndex at *; omega

lemma monthsFrom_mem (k : Nat) :
    ∀ y m p, 1 ≤ m → m ≤ 12 → p ∈ monthsFrom y m k →
      1 ≤ p.2 ∧ p.2 ≤ 12 := by
  induction k with
  | zero => intro y m p _ _ h; simp [monthsFrom] at h
  | succ k ih =>
    intro y m p hm1 hm2 hp
    unfold monthsFrom at hp
    rcases List.mem_cons.mp hp with rfl | hp'
    · exact ⟨hm1, hm2⟩
    · split at hp'
      · exact ih (y + 1) 1 p (by omega) (by omega) hp'
      · next h =>
        exact ih y (m + 1) p (by omega) (by omega) hp'

lemma monthIndex_inj {y m y' m' : Nat} (hm1 : 1 ≤ m) (hm2 : m ≤ 12)
    (hm1' : 1 ≤ m') (hm2' : m' ≤ 12)
    (h : monthIndex y m = monthIndex y' m') : y = y' ∧ m = m' := by
  unfold monthIndex at h
  constructor <;> omega

lemma spanOfMonth_years (sd ed : Date) (y m : Nat) :
    (spanOfMonth sd ed y m).1.year = y ∧ (spanOfMonth sd ed y m).1.month = m ∧
      (spanOfMonth sd ed y m).2.year = y ∧ (spanOfMonth sd ed y m).2.month = m := by
  unfold spanOfMonth
  refine ⟨?_, ?_, ?_, ?_⟩
  · by_cases hA : y = sd.year ∧ m = sd.month <;> simp [hA]
  · by_cases hA : y = sd.year ∧ m = sd.month <;> simp [hA]
  · by_cases hB : y = ed.year ∧ m = ed.month <;> simp [hB]
  · by_cases hB : y = ed.year ∧ m = ed.month <;> simp [hB]

lemma monthrange_pos {y m : Nat} (hm1 : 1 ≤ m) (hm2 : m ≤ 12) :
    1 ≤ monthrange y m := by
  unfold monthrange
  interval_cases m <;> split <;> simp

lemma monthrange_le_31 {y m : Nat} (hm1 : 1 ≤ m) (hm2 : m ≤ 12) :
    monthrange y m ≤ 31 := by
  unfold monthrange
  interval_cases m <;> split <;> simp_all

/-- Bridge: with exact fuel, the splitter's loop enumerates exactly the
    months from the cursor to the end month. -/
lemma iterMonthRangesAux_eq (sd ed : Date)
    (hed1 : 1 ≤ ed.month) (hed2 : ed.month ≤ 12) :
    ∀ fuel curY curM, 1 ≤ curM → curM ≤ 12 →
      monthIndex curY curM ≤ monthIndex ed.year ed.month →
      fuel = monthIndex ed.year ed.month + 1 - monthIndex curY curM →
      iterMonthRangesAux sd ed fuel curY curM =
        (monthsFrom curY curM fuel).map (fun p => spanOfMonth sd ed p.1 p.2) := by
  intro fuel
  induction fuel with
  | zero =>
    intro curY curM _ _ h3 h4
    omega
  | succ fuel ih =>
    intro curY curM h1 h2 h3 h4
    by_cases hend : curY = ed.year ∧ curM = ed.month
    · obtain ⟨hy, hm⟩ := hend
      subst hy
      subst hm
      have hf : fuel = 0 := by omega
      subst hf
      simp [iterMonthRangesAux, monthsFrom, spanOfMonth]
    · have hne : monthIndex curY curM ≠ monthIndex ed.year ed.month := by
        intro h
        exact hend (monthIndex_inj h1 h2 hed1 hed2 h)
      by_cases hm12 : curM = 12
      · subst hm12
        have hrec := ih (curY + 1) 1 (by omega) (by omega)
          (by unfold monthIndex at *; omega)
          (by unfold monthIndex at *; omega)
        simp [iterMonthRangesAux, monthsFrom, hend, hrec, spanOfMonth]
      · have hrec := ih curY (curM + 1) (by omega) (by omega)
          (by unfold monthIndex at *; omega)
          (by unfold monthIndex at *; omega)
        simp [iterMonthRangesAux, monthsFrom, hend, hm12, hrec, spanOfMonth]

lemma dateLe_monthIndex {sd ed : Date} (hsd : validDate sd) (hed : validDate ed)
    (h : dateLe sd ed) :
    monthIndex sd.year sd.month ≤ monthIndex ed.year ed.month := by
  obtain ⟨_, _, hm1, hm2, _, _⟩ := hsd
  obtain ⟨_, _, hm1', hm2', _, _⟩ := hed
  unfold monthIndex
  rcases h with h | ⟨h1, h2⟩ | ⟨h1, h2, _⟩ <;> omega

lemma iterMonthRanges_eq {sd ed : Date} (hsd : validDate sd) (hed : validDate ed)
    (hle : dateLe sd ed) :
    iterMonthRanges sd ed =
      (monthsFrom sd.year sd.month
        (monthIndex ed.year ed.month + 1 - monthIndex sd.year sd.month)).map
        (fun p => spanOfMonth sd ed p.1 p.2) := by
  have h := dateLe_monthIndex hsd hed hle
  obtain ⟨_, _, hm1, hm2, _, _⟩ := hsd
  obtain ⟨_, _, hm1', hm2', _, _⟩ := hed
  exact iterMonthRangesAux_eq sd ed hm1' hm2' _ sd.year sd.month hm1 hm2 h rfl

lemma spanOfMonth_days {sd ed : Date} (hsd : validDate sd) (hed : validDate ed)
    (hle : dateLe sd ed) {y m : Nat} (hm1 : 1 ≤ m) (hm2 : m ≤ 12) :
    1 ≤ (spanOfMonth sd ed y m).1.day ∧
      (spanOfMonth sd ed y m).1.day ≤ (spanOfMonth sd ed y m).2.day ∧
      (spanOfMonth sd ed y m).2.day ≤ monthrange y m := by
  obtain ⟨_, _, _, _, hd1, hd2⟩ := hsd
  obtain ⟨_, _, _, _, hd1', hd2'⟩ := hed
  unfold spanOfMonth
  by_cases hA : y = sd.year ∧ m = sd.month
  · by_cases hB : y = ed.year ∧ m = ed.month
    · rw [if_pos hA, if_pos hB]
      dsimp only
      obtain ⟨hy, hm⟩ := hA
      obtain ⟨hy', hm'⟩ := hB
      refine ⟨hd1, ?_, ?_⟩
      · rcases hle with h | ⟨h1, h2⟩ | ⟨h1, h2, h3⟩ <;> omega
      · rw [hy', hm']
        exact hd2'
    · rw [if_pos hA, if_neg hB]
      obtain ⟨hy, hm⟩ := hA
      refine ⟨hd1, ?_, le_refl _⟩
      rw [hy, hm]
      exact hd2
  · by_cases hB : y = ed.year ∧ m = ed.month
    · rw [if_neg hA, if_pos hB]
      obtain ⟨hy', hm'⟩ := hB
      refine ⟨le_refl 1, hd1', ?_⟩
      rw [hy', hm']
      exact hd2'
    · rw [if_neg hA, if_neg hB]
      exact ⟨le_refl 1, monthrange_pos hm1 hm2, le_refl _⟩

lemma iterMonthRanges_get {sd ed : Date} (hsd : validDate sd)
    (hed : validDate ed) (hle : dateLe sd ed) (i : Nat)
    (hi : i < monthIndex ed.year ed.month + 1 - monthIndex sd.year sd.month) :
    ∃ y m, (iterMonthRanges sd ed)[i]? = some (spanOfMonth sd ed y m) ∧
      monthIndex y m = monthIndex sd.year sd.month + i ∧ 1 ≤ m ∧ m ≤ 12 := by
  obtain ⟨y', m', hg, hgidx, hb1, hb2⟩ :=
    monthsFrom_get? _ sd.year sd.month i hi hsd.2.2.1 hsd.2.2.2.1
  refine ⟨y', m', ?_, hgidx, hb1, hb2⟩
  rw [iterMonthRanges_eq hsd hed hle, List.getElem?_map, hg]
  rfl

/-- C7: for valid dates with `start ≤ end`, `_iter_month_ranges` produces a
    finite ordered sequence of spans, one per calendar month overlapped
    (the i-th span lies in the i-th month after the start month), whose
    first span starts at `start` and whose last span ends at `end`; every
    span lies within a single calendar month with ordered in-month
    endpoints, and consecutive spans are contiguous and non-overlapping:
    the earlier span ends on the last day of its month and the next span
    starts on day 1 of the immediately following month (hence every
    intermediate span covers a full calendar month); a single-month range
    yields exactly the one pair `(start, end)`. -/
theorem iterMonthRanges_spec (sd ed : Date) (hsd : validDate sd)
    (hed : validDate ed) (hle : dateLe sd ed) :
    (iterMonthRanges sd ed).length
        = monthIndex ed.year ed.month + 1 - monthIndex sd.year sd.month ∧
    ((iterMonthRanges sd ed)[0]?).map Prod.fst = some sd ∧
    ((iterMonthRanges sd ed)[(iterMonthRanges sd ed).length - 1]?).map
        Prod.snd = some ed ∧
    (∀ p ∈ iterMonthRanges sd ed,
      p.1.year = p.2.year ∧ p.1.month = p.2.month ∧
        1 ≤ p.1.day ∧ p.1.day ≤ p.2.day ∧
        p.2.day ≤ monthrange p.1.year p.1.month) ∧
    (∀ i a b, (iterMonthRanges sd ed)[i]? = some (a, b) →
      monthIndex a.year a.month = monthIndex sd.year sd.month + i) ∧
    (∀ i a b a' b', (iterMonthRanges sd ed)[i]? = some (a, b) →
      (iterMonthRanges sd ed)[i + 1]? = some (a', b') →
      b.day = monthrange a.year a.month ∧ a'.day = 1 ∧
        monthIndex a'.year a'.month = monthIndex a.year a.month + 1) ∧
    (sd.year = ed.year → sd.month = ed.month →
      iterMonthRanges sd ed = [(sd, ed)]) := by
  have hidx := dateLe_monthIndex hsd hed hle
  have hm1 := hsd.2.2.1
  have hm2 := hsd.2.2.2.1
  have hm1' := hed.2.2.1
  have hm2' := hed.2.2.2.1
  have heq := iterMonthRanges_eq hsd hed hle
  set n := monthIndex ed.year ed.month + 1 - monthIndex sd.year sd.month
    with hn
  have hn1 : 1 ≤ n := by omega
  have hlen : (iterMonthRanges sd ed).length = n := by
    rw [heq, List.length_map, monthsFrom_length]
  refine ⟨hlen, ?_, ?_, ?_, ?_, ?_, ?_⟩
  · -- first span starts at start
    obtain ⟨y, m, hg, hgidx, hb1, hb2⟩ :=
      iterMonthRanges_get hsd hed hle 0 (by omega)
    obtain ⟨hy, hm⟩ := @monthIndex_inj y m sd.year sd.month hb1 hb2 hm1 hm2
      (by omega)
    subst hy
    subst hm
    rw [hg]
    simp [spanOfMonth]
  · -- last span ends at end
    obtain ⟨y, m, hg, hgidx, hb1, hb2⟩ :=
      iterMonthRanges_get hsd hed hle (n - 1) (by omega)
    obtain ⟨hy, hm⟩ := @monthIndex_inj y m ed.year ed.month hb1 hb2 hm1' hm2'
      (by omega)
    subst hy
    subst hm
    rw [hlen, hg]
    simp [spanOfMonth]
  · -- every span lies in one month with ordered endpoints
    intro p hp
    rw [heq] at hp
    obtain ⟨q, hq, rfl⟩ := List.mem_map.mp hp
    obtain ⟨hb1, hb2⟩ := monthsFrom_mem n sd.year sd.month q hm1 hm2 hq
    obtain ⟨e1, e2, e3, e4⟩ := spanOfMonth_years sd ed q.1 q.2
    obtain ⟨f1, f2, f3⟩ := spanOfMonth_days hsd hed hle hb1 hb2
    exact ⟨by rw [e1, e3], by rw [e2, e4], f1, f2, by rw [e1, e2]; exact f3⟩
  · -- the i-th span lies in the i-th month after the start month
    intro i a b hi
    have hilt : i < n := by
      obtain ⟨hlt, -⟩ := List.getElem?_eq_some.mp hi
      omega
    obtain ⟨y, m, hg, hgidx, hb1, hb2⟩ := iterMonthRanges_get hsd hed hle i hilt
    rw [hi] at hg
    obtain ⟨e1, e2, _, _⟩ := spanOfMonth_years sd ed y m
    have hab : (a, b) = spanOfMonth sd ed y m := Option.some_injective _ hg
    have ha : a = (spanOfMonth sd ed y m).1 := by rw [← hab]
    rw [ha, e1, e2, hgidx]
  · -- consecutive spans are contiguous
    intro i a b a' b' hi hi1
    have hilt : i + 1 < n := by
      obtain ⟨hlt, -⟩ := List.getElem?_eq_some.mp hi1
      omega
    obtain ⟨y, m, hg, hgidx, hb1, hb2⟩ :=
      iterMonthRanges_get hsd hed hle i (by omega)
    obtain ⟨y2, m2, hg2, hgidx2, hb12, hb22⟩ :=
      iterMonthRanges_get hsd hed hle (i + 1) hilt
    rw [hi] at hg
    rw [hi1] at hg2
    have hab : (a, b) = spanOfMonth sd ed y m := Option.some_injective _ hg
    have hab2 : (a', b') = spanOfMonth sd ed y2 m2 :=
      Option.some_injective _ hg2
    obtain ⟨e1, e2, e3, e4⟩ := spanOfMonth_years sd ed y m
    obtain ⟨e1', e2', e3', e4'⟩ := spanOfMonth_years sd ed y2 m2
    have ha : a = (spanOfMonth sd ed y m).1 := by rw [← hab]
    have hb : b = (spanOfMonth sd ed y m).2 := by rw [← hab]
    have ha' : a' = (spanOfMonth sd ed y2 m2).1 := by rw [← hab2]
    refine ⟨?_, ?_, ?_⟩
    · -- earlier span ends on the last day of its month
      have hne : ¬(y = ed.year ∧ m = ed.month) := by
        intro hcon
        have : monthIndex y m = monthIndex ed.year ed.month := by
          rw [hcon.1, hcon.2]
        omega
      rw [hb, ha, e1, e2]
      unfold spanOfMonth
      rw [if_neg hne]
    · -- next span starts on day 1
      have hne : ¬(y2 = sd.year ∧ m2 = sd.month) := by
        intro hcon
        have : monthIndex y2 m2 = monthIndex sd.year sd.month := by
          rw [hcon.1, hcon.2]
        omega
      rw [ha']
      unfold spanOfMonth
      rw [if_neg hne]
    · rw [ha, ha', e1, e2, e1', e2']
      omega
  · -- single-month ranges give exactly one pair
    intro hy hm
    have hn1' : n = 1 := by
      unfold monthIndex at *
      omega
    rw [heq, hn1']
    unfold monthsFrom monthsFrom
    simp only [List.map_cons, List.map_nil]
    unfold spanOfMonth
    rw [if_pos ⟨rfl, rfl⟩, if_pos ⟨hy, hm⟩]
    split
    · rfl
    · rfl

/-- Witness for C7 at the concrete cross-month range
    2025-09-29 .. 2025-10-02. -/
theorem iterMonthRanges_spec_witness :
    validDate ⟨2025, 9, 29⟩ ∧ validDate ⟨2025, 10, 2⟩ ∧
      dateLe ⟨2025, 9, 29⟩ ⟨2025, 10, 2⟩ ∧
      ((iterMonthRanges ⟨2025, 9, 29⟩ ⟨2025, 10, 2⟩)[0]?).map Prod.fst
        = some ⟨2025, 9, 29⟩ :=
  ⟨by decide, by decide, by decide,
    (iterMonthRanges_spec ⟨2025, 9, 29⟩ ⟨2025, 10, 2⟩ (by decide) (by decide)
      (by decide)).2.1⟩

/-! ## Properties of header-day normalisation -/

lemma digitVal_le {c : Char} (h : isAsciiDigit c = true) : digitVal c ≤ 9 := by
  simp [isAsciiDigit] at h
  unfold digitVal
  omega

lemma firstDigitRun_le (l : List Char) :
    ∀ n, firstDigitRun l = some n → n ≤ 99 := by
  induction l with
  | nil => intro n h; simp [firstDigitRun] at h
  | cons c rest ih =>
    intro n h
    unfold firstDigitRun at h
    by_cases hc : isAsciiDigit c = true
    · rw [if_pos hc] at h
      cases rest with
      | nil =>
        simp at h
        have := digitVal_le hc
        omega
      | cons c2 t =>
        by_cases hc2 : isAsciiDigit c2 = true
        · simp [hc2] at h
          have h1 := digitVal_le hc
          have h2 := digitVal_le hc2
          omega
        · simp [hc2] at h
          have := digitVal_le hc
          omega
    · rw [if_neg hc] at h
      exact ih n h

lemma firstDigitRun_none (l : List Char)
    (h : ∀ c ∈ l, isAsciiDigit c = false) : firstDigitRun l = none := by
  induction l with
  | nil => rfl
  | cons c rest ih =>
    unfold firstDigitRun
    rw [if_neg (by simp [h c (List.mem_cons_self c rest)])]
    exact ih (fun c hc => h c (List.mem_cons_of_mem _ hc))

/-- C8 counterexample: the source does not restrict normalised days to
    1–31 — an integer header cell `99` normalises to `99`. -/
theorem normalizeHeaderDay_counterexample :
    normalizeHeaderDay (some (.intV 99)) = some 99 ∧
      ¬(∀ n : Int, normalizeHeaderDay (some (.intV 99)) = some n →
          1 ≤ n ∧ n ≤ 31) := by
  constructor
  · rfl
  · intro h
    have := h 99 rfl
    omega

/-- C8 (amended): `_normalize_header_day` passes integers through
    unchanged (no 1–31 validation), truncates floats toward zero, maps a
    date to its day-of-month (which lies in 1–31 for a valid date), parses
    a string's first 1–2 digit run after full-width folding (so string
    results lie in 0–99, and a digit-free string yields null), and yields
    null on `None` and other shapes; the full-width string `"１０"` and
    the string `"10日"` both normalize to the integer 10. -/
theorem normalizeHeaderDay_spec :
    (∀ n : Int, normalizeHeaderDay (some (.intV n)) = some n) ∧
    (∀ q : ℚ, normalizeHeaderDay (some (.floatV q))
        = some (if 0 ≤ q then ⌊q⌋ else -⌊-q⌋)) ∧
    (∀ d : Date, validDate d →
      ∃ n : Int, normalizeHeaderDay (some (.dateV d)) = some n ∧
        1 ≤ n ∧ n ≤ 31) ∧
    (∀ s : String, ∀ n : Int,
      normalizeHeaderDay (some (.strV s)) = some n → 0 ≤ n ∧ n ≤ 99) ∧
    (∀ s : String,
      (∀ c ∈ (stripChars (s.data.map nfkcDigitFold)),
          isAsciiDigit c = false) →
      normalizeHeaderDay (some (.strV s)) = none) ∧
    normalizeHeaderDay (some (.strV "１０")) = some 10 ∧
    normalizeHeaderDay (some (.strV "10日")) = some 10 ∧
    normalizeHeaderDay none = none ∧
    normalizeHeaderDay (some .otherV) = none := by
  refine ⟨fun n => rfl, fun q => rfl, ?_, ?_, ?_, by decide, by decide,
    rfl, rfl⟩
  · intro d hd
    refine ⟨(d.day : Int), rfl, ?_, ?_⟩
    · obtain ⟨_, _, _, _, h1, _⟩ := hd
      omega
    · obtain ⟨_, _, hm1, hm2, _, h2⟩ := hd
      have := @monthrange_le_31 d.year d.month hm1 hm2
      omega
  · intro s n h
    have hdef : normalizeHeaderDay (some (.strV s))
        = (firstDigitRun (stripChars (s.data.map nfkcDigitFold))).map
            Int.ofNat := rfl
    rw [hdef] at h
    cases hr : firstDigitRun (stripChars (s.data.map nfkcDigitFold)) with
    | none => rw [hr] at h; simp at h
    | some k =>
      rw [hr] at h
      simp at h
      have := firstDigitRun_le _ k hr
      omega
  · intro s hs
    have hdef : normalizeHeaderDay (some (.strV s))
        = (firstDigitRun (stripChars (s.data.map nfkcDigitFold))).map
            Int.ofNat := rfl
    rw [hdef, firstDigitRun_none _ hs]
    rfl

/-- Witness for C8 (amended) at concrete inputs: a valid date and a
    concrete string result. -/
theorem normalizeHeaderDay_spec_witness :
    validDate ⟨2025, 2, 28⟩ ∧
      (∃ n : Int, normalizeHeaderDay (some (.dateV ⟨2025, 2, 28⟩)) = some n ∧
        1 ≤ n ∧ n ≤ 31) ∧
      (0 ≤ (10 : Int) ∧ (10 : Int) ≤ 99) :=
  ⟨by decide,
    normalizeHeaderDay_spec.2.2.1 ⟨2025, 2, 28⟩ (by decide),
    normalizeHeaderDay_spec.2.2.2.1 "10日" 10 (by decide)⟩

/-! ## Query Layer without a Log Page -/

/-- C10: when the document has no `'予約ログ'` sheet,
    `list_cancellable_bookings` returns the empty list instead of
    raising. -/
theorem list_cancellable_bookings_missing_log (wb : Workbook) (u : UserInfo)
    (h : wb.findSheet "予約ログ" = none) :
    list_cancellable_bookings wb u = [] := by
  unfold list_cancellable_bookings
  rw [h]

/-! ## Concrete sample documents (used by witnesses)

The layout of the spec's scenario: month page `'25年9月'` with day headers
1–30 in row 8, columns 3–32, and devices in column B from row 9. -/

def sampleCell (r c : Nat) : Option Value :=
  if r = 8 ∧ 3 ≤ c ∧ c ≤ 32 then some (.intV ((c : Int) - 2))
  else if r = 9 ∧ c = 2 then some (.strV "FEデモ機A")
  else if r = 10 ∧ c = 2 then some (.strV "FEデモ機B")
  else none

def sampleSheet : Sheet := ⟨10, 32, sampleCell⟩

def sampleWb : Workbook := ⟨[("25年9月", sampleSheet)]⟩

def sampleUser : UserInfo := ⟨"山田", "1234", "E001"⟩

/-- A post-save environment in which every validation check passes. -/
def goodEnv : SaveEnv := ⟨true, true, some 10000, 10000, true, true⟩

def dSep10 : Date := ⟨2025, 9, 10⟩

def dSep12 : Date := ⟨2025, 9, 12⟩

/-- Witness for C10: the sample document has no Log Page, and the query
    returns the empty list. -/
theorem list_cancellable_bookings_missing_log_witness :
    sampleWb.findSheet "予約ログ" = none ∧
      list_cancellable_bookings sampleWb sampleUser = [] :=
  ⟨rfl, list_cancellable_bookings_missing_log sampleWb sampleUser rfl⟩

/-! ## Availability Engine characterisation -/

/-- A span fully resolves (page, device row, day columns) and every cell
    in its resolved range is empty. -/
def spanResolvedEmpty (wb : Workbook) (dev : String) (p : Date × Date) :
    Prop :=
  ∃ sheet row cols, wb.findSheet (monthSheetName p.1) = some sheet ∧
    findDeviceRow sheet (some (.strV dev)) = some row ∧
    getDateColumns sheet p.1 p.2 = .ok cols ∧
    ∀ c ∈ cols, sheet.cell row c = none

/-- A span fully resolves and some cell in its resolved range is
    non-empty. -/
def spanResolvedBusy (wb : Workbook) (dev : String) (p : Date × Date) :
    Prop :=
  ∃ sheet row cols, wb.findSheet (monthSheetName p.1) = some sheet ∧
    findDeviceRow sheet (some (.strV dev)) = some row ∧
    getDateColumns sheet p.1 p.2 = .ok cols ∧
    ∃ c ∈ cols, sheet.cell row c ≠ none

lemma getDateColumnsAux_err (sheet : Sheet) :
    ∀ ds e, getDateColumnsAux sheet ds = .error e →
      ∃ d, e = ExcelErr.dayNotFound d ∧ getDateColumn sheet d = none ∧
        d ∈ ds := by
  intro ds
  induction ds with
  | nil => intro e h; exact Except.noConfusion h
  | cons d t ih =>
    intro e h
    unfold getDateColumnsAux at h
    cases hc : getDateColumn sheet d <;> rw [hc] at h
    · cases h
      exact ⟨d, rfl, hc, List.mem_cons_self _ _⟩
    · cases ht : getDateColumnsAux sheet t <;> rw [ht] at h
      · cases h
        obtain ⟨d', he, hcol, hmem⟩ := ih _ ht
        exact ⟨d', he, hcol, List.mem_cons_of_mem _ hmem⟩
      · exact Except.noConfusion h

lemma getDateColumns_err (sheet : Sheet) (ms me : Date) (e : ExcelErr)
    (h : getDateColumns sheet ms me = .error e) :
    ∃ d, e = ExcelErr.dayNotFound d ∧ getDateColumn sheet d = none ∧
      ms.day ≤ d ∧ d ≤ me.day := by
  obtain ⟨d, he, hcol, hmem⟩ := getDateColumnsAux_err sheet _ e h
  rw [pyRange, List.mem_range'_1] at hmem
  exact ⟨d, he, hcol, by omega, by omega⟩

lemma checkSpans_true_iff (wb : Workbook) (dev : String) :
    ∀ L, checkSpans wb dev L = .ok true ↔
      ∀ p ∈ L, spanResolvedEmpty wb dev p := by
  intro L
  induction L with
  | nil => simp [checkSpans]
  | cons sp rest ih =>
    obtain ⟨ms, me⟩ := sp
    unfold checkSpans
    cases h1 : wb.findSheet (monthSheetName ms) with
    | none =>
      dsimp only
      constructor
      · intro h
        exact Except.noConfusion h
      · intro hall
        obtain ⟨sheet, row, cols, hs, -⟩ :=
          hall (ms, me) (List.mem_cons_self _ _)
        rw [h1] at hs
        exact Option.noConfusion hs
    | some sheet =>
      dsimp only
      cases h2 : findDeviceRow sheet (some (.strV dev)) with
      | none =>
        dsimp only
        constructor
        · intro h
          exact Except.noConfusion h
        · intro hall
          obtain ⟨sheet', row, cols, hs, hr, -⟩ :=
            hall (ms, me) (List.mem_cons_self _ _)
          rw [h1] at hs
          cases hs
          rw [h2] at hr
          exact Option.noConfusion hr
      | some row =>
        dsimp only
        cases h3 : getDateColumns sheet ms me with
        | error e =>
          dsimp only
          constructor
          · intro h
            exact Except.noConfusion h
          · intro hall
            obtain ⟨sheet', row', cols, hs, hr, hc, -⟩ :=
              hall (ms, me) (List.mem_cons_self _ _)
            rw [h1] at hs
            cases hs
            rw [h3] at hc
            exact Except.noConfusion hc
        | ok cols =>
          dsimp only
          by_cases h4 : cols.any (fun c => (sheet.cell row c).isSome) = true
          · rw [if_pos h4]
            constructor
            · intro h
              simp at h
            · intro hall
              obtain ⟨sheet', row', cols', hs, hr, hc, hall'⟩ :=
                hall (ms, me) (List.mem_cons_self _ _)
              rw [h1] at hs
              cases hs
              rw [h2] at hr
              cases hr
              rw [h3] at hc
              cases hc
              obtain ⟨c, hcmem, hcsome⟩ := List.any_eq_true.mp h4
              rw [hall' c hcmem] at hcsome
              exact Bool.noConfusion hcsome
          · rw [if_neg h4]
            rw [ih]
            constructor
            · intro hrest p hp
              rcases List.mem_cons.mp hp with rfl | hp'
              · refine ⟨sheet, row, cols, h1, h2, h3, ?_⟩
                intro c hc
                have h4' : cols.any (fun c => (sheet.cell row c).isSome)
                    = false := by
                  cases hb : cols.any (fun c => (sheet.cell row c).isSome)
                  · rfl
                  · exact absurd hb h4
                have := List.any_eq_false.mp h4' c hc
                cases hcell : sheet.cell row c
                · rfl
                · rw [hcell] at this
                  exact absurd rfl this
              · exact hrest p hp'
            · intro hall p hp
              exact hall p (List.mem_cons_of_mem _ hp)

lemma checkSpans_false (wb : Workbook) (dev : String) :
    ∀ L, checkSpans wb dev L = .ok false →
      ∃ p ∈ L, spanResolvedBusy wb dev p := by
  intro L
  induction L with
  | nil => intro h; simp [checkSpans] at h
  | cons sp rest ih =>
    obtain ⟨ms, me⟩ := sp
    intro h
    unfold checkSpans at h
    cases h1 : wb.findSheet (monthSheetName ms) <;>
      rw [h1] at h <;> dsimp only at h
    · exact Except.noConfusion h
    case some sheet =>
      cases h2 : findDeviceRow sheet (some (.strV dev)) <;>
        rw [h2] at h <;> dsimp only at h
      · exact Except.noConfusion h
      case some row =>
        cases h3 : getDateColumns sheet ms me <;>
          rw [h3] at h <;> dsimp only at h
        · exact Except.noConfusion h
        case ok cols =>
          by_cases h4 : cols.any (fun c => (sheet.cell row c).isSome) = true
          · obtain ⟨c, hcmem, hcsome⟩ := List.any_eq_true.mp h4
            refine ⟨(ms, me), List.mem_cons_self _ _,
              sheet, row, cols, h1, h2, h3, c, hcmem, ?_⟩
            intro hnone
            rw [hnone] at hcsome
            exact Bool.noConfusion hcsome
          · rw [if_neg h4] at h
            obtain ⟨p, hp, hbusy⟩ := ih h
            exact ⟨p, List.mem_cons_of_mem _ hp, hbusy⟩

lemma checkSpans_err (wb : Workbook) (dev : String) :
    ∀ L e, checkSpans wb dev L = .error e →
      (∃ nm, e = .sheetNotFound nm ∧ (∃ p ∈ L, nm = monthSheetName p.1) ∧
        wb.findSheet nm = none) ∨
      (e = .deviceNotFound (some (.strV dev)) ∧ ∃ p ∈ L, ∃ sheet,
        wb.findSheet (monthSheetName p.1) = some sheet ∧
        findDeviceRow sheet (some (.strV dev)) = none) ∨
      (∃ d, e = .dayNotFound d ∧ ∃ p ∈ L, ∃ sheet row,
        wb.findSheet (monthSheetName p.1) = some sheet ∧
        findDeviceRow sheet (some (.strV dev)) = some row ∧
        getDateColumn sheet d = none ∧ p.1.day ≤ d ∧ d ≤ p.2.day) := by
  intro L
  induction L with
  | nil =>
    intro e h
    simp [checkSpans] at h
  | cons sp rest ih =>
    obtain ⟨ms, me⟩ := sp
    intro e h
    unfold checkSpans at h
    cases h1 : wb.findSheet (monthSheetName ms) <;>
      rw [h1] at h <;> dsimp only at h
    · cases h
      exact Or.inl ⟨monthSheetName ms, rfl,
        ⟨(ms, me), List.mem_cons_self _ _, rfl⟩, h1⟩
    case some sheet =>
      cases h2 : findDeviceRow sheet (some (.strV dev)) <;>
        rw [h2] at h <;> dsimp only at h
      · cases h
        exact Or.inr (Or.inl ⟨rfl, (ms, me), List.mem_cons_self _ _,
          sheet, h1, h2⟩)
      case some row =>
        cases h3 : getDateColumns sheet ms me <;>
          rw [h3] at h <;> dsimp only at h
        case error eD =>
          obtain rfl := Except.error.inj h
          obtain ⟨d, hd, hcol, hd1, hd2⟩ := getDateColumns_err sheet ms me eD h3
          exact Or.inr (Or.inr ⟨d, hd, (ms, me), List.mem_cons_self _ _,
            sheet, row, h1, h2, hcol, hd1, hd2⟩)
        case ok cols =>
          by_cases h4 : cols.any (fun c => (sheet.cell row c).isSome) = true
          · rw [if_pos h4] at h
            exact Except.noConfusion h
          · rw [if_neg h4] at h
            rcases ih e h with ⟨nm, he, ⟨p, hp, hpn⟩, hnone⟩ |
              ⟨he, p, hp, rest'⟩ | ⟨d, hd, p, hp, rest'⟩
            · exact Or.inl ⟨nm, he,
                ⟨p, List.mem_cons_of_mem _ hp, hpn⟩, hnone⟩
            · exact Or.inr (Or.inl ⟨he, p, List.mem_cons_of_mem _ hp, rest'⟩)
            · exact Or.inr (Or.inr ⟨d, hd, p, List.mem_cons_of_mem _ hp,
                rest'⟩)

/-- C5: `check_availability` returns true iff every span resolves (page,
    device row, day columns) with every cell in range empty; a false
    result exhibits a resolved span containing a non-empty cell; and every
    error is a lookup error naming a genuinely missing key — a missing
    month page (by its name), a missing device row on a resolved page, or
    a missing day column for a day inside a span. -/
theorem check_availability_spec (wb : Workbook) (dev : String)
    (sd ed : Date) :
    (check_availability wb dev sd ed = .ok true ↔
      ∀ p ∈ iterMonthRanges sd ed, spanResolvedEmpty wb dev p) ∧
    (check_availability wb dev sd ed = .ok false →
      ∃ p ∈ iterMonthRanges sd ed, spanResolvedBusy wb dev p) ∧
    (∀ e, check_availability wb dev sd ed = .error e →
      (∃ nm, e = .sheetNotFound nm ∧
        (∃ p ∈ iterMonthRanges sd ed, nm = monthSheetName p.1) ∧
        wb.findSheet nm = none) ∨
      (e = .deviceNotFound (some (.strV dev)) ∧
        ∃ p ∈ iterMonthRanges sd ed, ∃ sheet,
          wb.findSheet (monthSheetName p.1) = some sheet ∧
          findDeviceRow sheet (some (.strV dev)) = none) ∨
      (∃ d, e = .dayNotFound d ∧ ∃ p ∈ iterMonthRanges sd ed, ∃ sheet row,
        wb.findSheet (monthSheetName p.1) = some sheet ∧
        findDeviceRow sheet (some (.strV dev)) = some row ∧
        getDateColumn sheet d = none ∧ p.1.day ≤ d ∧ d ≤ p.2.day)) :=
  ⟨checkSpans_true_iff wb dev _, checkSpans_false wb dev _,
    fun e => checkSpans_err wb dev _ e⟩

/-- Witness for C5 on the sample document: availability of a free device
    is true, and the resolution property follows through the theorem. -/
theorem check_availability_spec_witness :
    check_availability sampleWb "FEデモ機A" dSep10 dSep12 = .ok true ∧
      ∀ p ∈ iterMonthRanges dSep10 dSep12,
        spanResolvedEmpty sampleWb "FEデモ機A" p :=
  ⟨by decide,
    (check_availability_spec sampleWb "FEデモ機A" dSep10 dSep12).1.mp
      (by decide)⟩

/-! ## `find_available_device` characterisation -/

lemma evalCandidate_eq_checkSpans (wb : Workbook) (dev : String) :
    ∀ L, evalCandidate wb dev L = checkSpans wb dev L := by
  intro L
  induction L with
  | nil => rfl
  | cons sp rest ih =>
    obtain ⟨ms, me⟩ := sp
    unfold evalCandidate checkSpans
    cases wb.findSheet (monthSheetName ms) with
    | none => rfl
    | some sheet =>
      dsimp only
      cases findDeviceRow sheet (some (.strV dev)) with
      | none => rfl
      | some row =>
        dsimp only
        cases getDateColumns sheet ms me with
        | error e => rfl
        | ok cols =>
          dsimp only
          split
          · rfl
          · exact ih

lemma findFirstAvailable_some (wb : Workbook) (spans : List (Date × Date)) :
    ∀ cands dev, findFirstAvailable wb spans cands = .ok (some dev) →
      ∃ pre post, cands = pre ++ dev :: post ∧
        (∀ x ∈ pre, evalCandidate wb x spans = .ok false) ∧
        evalCandidate wb dev spans = .ok true := by
  intro cands
  induction cands with
  | nil => intro dev h; simp [findFirstAvailable] at h
  | cons c rest ih =>
    intro dev h
    unfold findFirstAvailable at h
    cases hc : evalCandidate wb c spans <;> rw [hc] at h <;>
      try dsimp only at h
    · exact Except.noConfusion h
    case ok b =>
      cases b <;> dsimp only at h
      · obtain ⟨pre, post, hsplit, hpre, hdev⟩ := ih dev h
        refine ⟨c :: pre, post, by rw [hsplit]; rfl, ?_, hdev⟩
        intro x hx
        rcases List.mem_cons.mp hx with rfl | hx'
        · exact hc
        · exact hpre x hx'
      · obtain rfl : c = dev := by
          have := Except.ok.inj h
          exact Option.some.inj this
        exact ⟨[], rest, rfl, by simp, hc⟩

lemma findFirstAvailable_none (wb : Workbook) (spans : List (Date × Date)) :
    ∀ cands, findFirstAvailable wb spans cands = .ok none →
      ∀ x ∈ cands, evalCandidate wb x spans = .ok false := by
  intro cands
  induction cands with
  | nil => intro _ x hx; simp at hx
  | cons c rest ih =>
    intro h x hx
    unfold findFirstAvailable at h
    cases hc : evalCandidate wb c spans <;> rw [hc] at h <;>
      try dsimp only at h
    · exact Except.noConfusion h
    case ok b =>
      cases b <;> dsimp only at h
      · rcases List.mem_cons.mp hx with rfl | hx'
        · exact hc
        · exact ih h x hx'
      · exact Option.noConfusion (Except.ok.inj h)

lemma findFirstAvailable_err (wb : Workbook) (spans : List (Date × Date)) :
    ∀ cands e, findFirstAvailable wb spans cands = .error e →
      ∃ pre x post, cands = pre ++ x :: post ∧
        (∀ y ∈ pre, evalCandidate wb y spans = .ok false) ∧
        evalCandidate wb x spans = .error e := by
  intro cands
  induction cands with
  | nil => intro e h; simp [findFirstAvailable] at h
  | cons c rest ih =>
    intro e h
    unfold findFirstAvailable at h
    cases hc : evalCandidate wb c spans <;> rw [hc] at h <;>
      try dsimp only at h
    case error eD =>
      obtain rfl := Except.error.inj h
      exact ⟨[], c, rest, rfl, by simp, hc⟩
    case ok b =>
      cases b <;> dsimp only at h
      · obtain ⟨pre, x, post, hsplit, hpre, hx⟩ := ih e h
        refine ⟨c :: pre, x, post, by rw [hsplit]; rfl, ?_, hx⟩
        intro y hy
        rcases List.mem_cons.mp hy with rfl | hy'
        · exact hc
        · exact hpre y hy'
      · exact Except.noConfusion h

lemma findFirstAvailable_first_err (wb : Workbook)
    (spans : List (Date × Date)) (e : ExcelErr) :
    ∀ pre x post, (∀ y ∈ pre, evalCandidate wb y spans = .ok false) →
      evalCandidate wb x spans = .error e →
      findFirstAvailable wb spans (pre ++ x :: post) = .error e := by
  intro pre
  induction pre with
  | nil =>
    intro x post _ hx
    unfold findFirstAvailable
    rw [List.nil_append]
    dsimp only
    rw [hx]
  | cons c t ih =>
    intro x post hpre hx
    have hc : evalCandidate wb c spans = .ok false :=
      hpre c (List.mem_cons_self _ _)
    unfold findFirstAvailable
    rw [List.cons_append]
    dsimp only
    rw [hc]
    exact ih x post (fun y hy => hpre y (List.mem_cons_of_mem _ hy)) hx

/-- C6: when the start month's page resolves, `find_available_device`
    draws its candidates from that page (names with the given prefix, in
    page row order); a returned device is a candidate, is fully available
    across all spans (never returned with a non-empty cell in range on any
    touched page), and is the first such candidate — every earlier
    candidate has a resolved span with a non-empty cell; a `none` result
    means every candidate has such a conflict; a device-not-found error
    names a candidate whose row is missing on a required (resolved) page;
    and an error on the first non-conflicting candidate aborts the whole
    search instead of skipping that candidate. -/
theorem find_available_device_spec (wb : Workbook) (dt : String)
    (sd ed : Date) (startSheet : Sheet)
    (hstart : wb.findSheet (monthSheetName sd) = some startSheet) :
    (∀ dev, find_available_device wb dt sd ed = .ok (some dev) →
      dev ∈ candidatesList startSheet dt ∧
      (∀ p ∈ iterMonthRanges sd ed, spanResolvedEmpty wb dev p) ∧
      ∃ pre post, candidatesList startSheet dt = pre ++ dev :: post ∧
        ∀ x ∈ pre, ∃ p ∈ iterMonthRanges sd ed, spanResolvedBusy wb x p) ∧
    (find_available_device wb dt sd ed = .ok none →
      ∀ x ∈ candidatesList startSheet dt,
        ∃ p ∈ iterMonthRanges sd ed, spanResolvedBusy wb x p) ∧
    (∀ v, find_available_device wb dt sd ed = .error (.deviceNotFound v) →
      ∃ x ∈ candidatesList startSheet dt, v = some (.strV x) ∧
        ∃ p ∈ iterMonthRanges sd ed, ∃ sheet,
          wb.findSheet (monthSheetName p.1) = some sheet ∧
          findDeviceRow sheet (some (.strV x)) = none) ∧
    (∀ pre x post e, candidatesList startSheet dt = pre ++ x :: post →
      (∀ y ∈ pre, evalCandidate wb y (iterMonthRanges sd ed) = .ok false) →
      evalCandidate wb x (iterMonthRanges sd ed) = .error e →
      find_available_device wb dt sd ed = .error e) := by
  have hun : find_available_device wb dt sd ed
      = findFirstAvailable wb (iterMonthRanges sd ed)
          (candidatesList startSheet dt) := by
    unfold find_available_device
    rw [hstart]
  refine ⟨?_, ?_, ?_, ?_⟩
  · intro dev h
    rw [hun] at h
    obtain ⟨pre, post, hsplit, hpre, hdev⟩ :=
      findFirstAvailable_some wb _ _ dev h
    rw [evalCandidate_eq_checkSpans] at hdev
    refine ⟨by rw [hsplit]; simp,
      (checkSpans_true_iff wb dev _).mp hdev, pre, post, hsplit, ?_⟩
    intro x hx
    have := hpre x hx
    rw [evalCandidate_eq_checkSpans] at this
    exact checkSpans_false wb x _ this
  · intro h x hx
    rw [hun] at h
    have := findFirstAvailable_none wb _ _ h x hx
    rw [evalCandidate_eq_checkSpans] at this
    exact checkSpans_false wb x _ this
  · intro v h
    rw [hun] at h
    obtain ⟨pre, x, post, hsplit, hpre, hx⟩ :=
      findFirstAvailable_err wb _ _ _ h
    rw [evalCandidate_eq_checkSpans] at hx
    rcases checkSpans_err wb x _ _ hx with ⟨nm, he, -, -⟩ |
      ⟨he, p, hp, sheet, hs, hr⟩ | ⟨d, he, -⟩
    · exact ExcelErr.noConfusion he
    · have hv : v = some (.strV x) := ExcelErr.deviceNotFound.inj he
      exact ⟨x, by rw [hsplit]; simp, hv, p, hp, sheet, hs, hr⟩
    · exact ExcelErr.noConfusion he
  · intro pre x post e hsplit hpre hx
    rw [hun, hsplit]
    exact findFirstAvailable_first_err wb _ e pre x post hpre hx

/-- Witness for C6: on the sample document, the search returns the first
    matching device, which is a member of the candidate list. -/
theorem find_available_device_spec_witness :
    find_available_device sampleWb "FE" dSep10 dSep12
        = .ok (some "FEデモ機A") ∧
      "FEデモ機A" ∈ candidatesList sampleSheet "FE" :=
  ⟨by decide,
    ((find_available_device_spec sampleWb "FE" dSep10 dSep12 sampleSheet
      rfl).1 "FEデモ機A" (by decide)).1⟩

/-! ## Durability Layer: persistence errors and restore behaviour -/

/-- Two post-save environments that agree on everything the validator
    reads (all fields except the restore result). -/
def SaveEnv.sameChecks (a b : SaveEnv) : Prop :=
  a.zipOk = b.zipOk ∧ a.loadOk = b.loadOk ∧ a.preSize = b.preSize ∧
    a.postSize = b.postSize ∧ a.bakExists = b.bakExists

lemma validateOk_congr (wb : Workbook) {env env' : SaveEnv}
    (h : env.sameChecks env') (expected : List String) :
    validateOk wb env expected = validateOk wb env' expected := by
  obtain ⟨h1, h2, h3, h4, h5⟩ := h
  unfold validateOk
  rw [h1, h2, h3, h4]

lemma saveAndValidate_spec (disk wb : Workbook) (expected : List String)
    (env : SaveEnv) (ret : α) :
    ((saveAndValidate disk wb expected env ret).outcome
        = .error .persistence ↔ validateOk wb env expected = false) ∧
    ((saveAndValidate disk wb expected env ret).outcome = .ok ret ↔
      validateOk wb env expected = true) ∧
    (saveAndValidate disk wb expected env ret).restoreAttempted
      = (!validateOk wb env expected && env.bakExists) ∧
    (saveAndValidate disk wb expected env ret).savedDocs = [wb] := by
  unfold saveAndValidate
  by_cases h : validateOk wb env expected = true
  · rw [if_pos h]
    simp [h]
  · rw [if_neg h]
    simp [Bool.eq_false_iff.mpr h]

lemma saveAndValidate_outcome_congr (disk wb : Workbook)
    (expected : List String) {env env' : SaveEnv}
    (h : env.sameChecks env') (ret : α) :
    (saveAndValidate disk wb expected env ret).outcome
      = (saveAndValidate disk wb expected env' ret).outcome := by
  unfold saveAndValidate
  rw [validateOk_congr wb h expected]
  by_cases hv : validateOk wb env' expected = true
  · rw [if_pos hv, if_pos hv]
  · rw [if_neg hv, if_neg hv]

lemma markSpans_err_shape (dev marker : String) :
    ∀ wb L e, markSpans wb dev marker L = .error e →
      (∃ nm, e = .sheetNotFound nm) ∨ (∃ v, e = .deviceNotFound v) ∨
        (∃ d, e = .dayNotFound d) := by
  intro wb L
  induction L generalizing wb with
  | nil => intro e h; exact Except.noConfusion h
  | cons sp rest ih =>
    obtain ⟨ms, me⟩ := sp
    intro e h
    unfold markSpans at h
    cases h1 : wb.findSheet (monthSheetName ms) <;>
      rw [h1] at h <;> try dsimp only at h
    · obtain rfl := Except.error.inj h
      exact Or.inl ⟨_, rfl⟩
    case some sheet =>
      cases h2 : findDeviceRow sheet (some (.strV dev)) <;>
        rw [h2] at h <;> try dsimp only at h
      · obtain rfl := Except.error.inj h
        exact Or.inr (Or.inl ⟨_, rfl⟩)
      case some row =>
        cases h3 : getDateColumns sheet ms me <;>
          rw [h3] at h <;> try dsimp only at h
        case error eD =>
          obtain rfl := Except.error.inj h
          obtain ⟨d, hd, -⟩ := getDateColumns_err sheet ms me eD h3
          exact Or.inr (Or.inr ⟨d, hd⟩)
        case ok cols =>
          exact ih _ e h

lemma clearSpans_err_shape (deviceName : Option Value) (pref : String) :
    ∀ wb L e, clearSpans wb deviceName pref L = .error e →
      (∃ nm, e = .sheetNotFound nm) ∨ ∃ v, e = .deviceNotFound v := by
  intro wb L
  induction L generalizing wb with
  | nil => intro e h; exact Except.noConfusion h
  | cons sp rest ih =>
    obtain ⟨ms, me⟩ := sp
    intro e h
    unfold clearSpans at h
    cases h1 : wb.findSheet (monthSheetName ms) <;>
      rw [h1] at h <;> try dsimp only at h
    · obtain rfl := Except.error.inj h
      exact Or.inl ⟨_, rfl⟩
    case some sheet =>
      cases h2 : findDeviceRow sheet deviceName <;>
        rw [h2] at h <;> try dsimp only at h
      · obtain rfl := Except.error.inj h
        exact Or.inr ⟨_, rfl⟩
      case some row =>
        exact ih _ e h

lemma bookCheck_err_shape (disk : Workbook) (dev : String) (sd ed : Date)
    (e : ExcelErr) (h : bookCheck disk dev sd ed = .error e) :
    e ≠ .persistence := by
  unfold bookCheck at h
  cases hc : check_availability disk dev sd ed <;>
    rw [hc] at h <;> try dsimp only at h
  case error eD =>
    obtain rfl := Except.error.inj h
    rcases checkSpans_err disk dev _ eD hc with ⟨nm, he, -⟩ | ⟨he, -⟩ |
      ⟨d, he, -⟩ <;> subst he <;> exact fun hcon => ExcelErr.noConfusion hcon
  case ok b =>
    cases b <;> dsimp only at h
    · obtain rfl := Except.error.inj h
      exact fun hcon => ExcelErr.noConfusion hcon
    · exact Except.noConfusion h

/-- C4: `book` and `cancel` raise the persistence (I/O) error exactly when
    the post-write validation (`_validate_or_restore`: archive check,
    expected-sheet presence, size-ratio, minimum size) fails on the saved
    document; the Durability Layer attempts the one best-effort backup
    restore exactly when validation failed and a backup exists; and the
    restore's own success or failure is swallowed — the reported outcome
    is unchanged under any restore result. -/
theorem persistence_error_spec (disk : Workbook) (dev : String)
    (sd ed : Date) (u : UserInfo) (bid now bookingId : String)
    (env env' : SaveEnv) (henv : env.sameChecks env') :
    (∀ wb1, bookCheck disk dev sd ed = .ok () →
      markSpans disk dev ("C:" ++ bid) (iterMonthRanges sd ed) = .ok wb1 →
      ((book disk dev sd ed u bid now env).outcome = .error .persistence ↔
        validateOk
          (appendLogRow (ensureBookingLogSheet wb1) bid now dev
            (dateToStr sd) (dateToStr ed) u) env (expectedSheets sd ed)
          = false) ∧
      (book disk dev sd ed u bid now env).restoreAttempted
        = (!validateOk
            (appendLogRow (ensureBookingLogSheet wb1) bid now dev
              (dateToStr sd) (dateToStr ed) u) env (expectedSheets sd ed)
          && env.bakExists)) ∧
    ((book disk dev sd ed u bid now env).outcome = .error .persistence →
      ∃ wb2, (book disk dev sd ed u bid now env).savedDocs = [wb2] ∧
        validateOk wb2 env (expectedSheets sd ed) = false) ∧
    ((book disk dev sd ed u bid now env).outcome
      = (book disk dev sd ed u bid now env').outcome) ∧
    (∀ log bookingRow sd2 ed2 wb1,
      disk.findSheet "予約ログ" = some log →
      (pyRange 2 (log.maxRow + 1)).find?
          (fun r => pyEqOpt (log.cell r 1) (some (.strV bookingId)))
        = some bookingRow →
      readLogDates log bookingRow = some (sd2, ed2) →
      clearSpans disk (log.cell bookingRow 6) ("C:" ++ bookingId)
          (iterMonthRanges sd2 ed2) = .ok wb1 →
      ((cancel disk bookingId env).outcome = .error .persistence ↔
        validateOk wb1 env (expectedSheets sd2 ed2) = false) ∧
      (cancel disk bookingId env).restoreAttempted
        = (!validateOk wb1 env (expectedSheets sd2 ed2)
            && env.bakExists)) ∧
    ((cancel disk bookingId env).outcome = .error .persistence →
      ∃ wb1 sd2 ed2, (cancel disk bookingId env).savedDocs = [wb1] ∧
        validateOk wb1 env (expectedSheets sd2 ed2) = false) ∧
    ((cancel disk bookingId env).outcome
      = (cancel disk bookingId env').outcome) := by
  refine ⟨?_, ?_, ?_, ?_, ?_, ?_⟩
  · intro wb1 hchk hmark
    unfold book
    rw [hchk]
    dsimp only
    unfold bookLocked
    rw [hmark]
    dsimp only
    obtain ⟨hiff, -, hatt, -⟩ :=
      saveAndValidate_spec disk
        (appendLogRow (ensureBookingLogSheet wb1) bid now dev
          (dateToStr sd) (dateToStr ed) u) (expectedSheets sd ed) env bid
    exact ⟨hiff, hatt⟩
  · intro h
    unfold book at h ⊢
    cases hchk : bookCheck disk dev sd ed <;> rw [hchk] at h <;>
      try dsimp only at h ⊢
    case error e =>
      obtain rfl := Except.error.inj h
      exact absurd rfl (bookCheck_err_shape disk dev sd ed _ hchk)
    case ok u0 =>
      unfold bookLocked at h ⊢
      cases hmark : markSpans disk dev ("C:" ++ bid)
          (iterMonthRanges sd ed) <;> rw [hmark] at h <;>
        try dsimp only at h ⊢
      case error e =>
        obtain rfl := Except.error.inj h
        rcases markSpans_err_shape dev _ disk _ _ hmark with
          ⟨nm, he⟩ | ⟨v, he⟩ | ⟨d, he⟩ <;> exact ExcelErr.noConfusion he
      case ok wb1 =>
        obtain ⟨hiff, -, -, hdocs⟩ :=
          saveAndValidate_spec disk
            (appendLogRow (ensureBookingLogSheet wb1) bid now dev
              (dateToStr sd) (dateToStr ed) u) (expectedSheets sd ed) env bid
        exact ⟨_, hdocs, hiff.mp h⟩
  · unfold book
    cases hchk : bookCheck disk dev sd ed
    · rfl
    case ok u0 =>
      show (bookLocked disk dev sd ed u bid now env).outcome
        = (bookLocked disk dev sd ed u bid now env').outcome
      unfold bookLocked
      cases hmark : markSpans disk dev ("C:" ++ bid) (iterMonthRanges sd ed)
      · rfl
      case ok wb1 => exact saveAndValidate_outcome_congr disk _ _ henv bid
  · intro log bookingRow sd2 ed2 wb1 hlog hfind hdates hclear
    unfold cancel
    rw [hlog]
    dsimp only
    rw [hfind]
    dsimp only
    rw [hdates]
    dsimp only
    rw [hclear]
    dsimp only
    obtain ⟨hiff, -, hatt, -⟩ :=
      saveAndValidate_spec disk wb1 (expectedSheets sd2 ed2) env ()
    exact ⟨hiff, hatt⟩
  · intro h
    unfold cancel at h ⊢
    cases hlog : disk.findSheet "予約ログ" <;> rw [hlog] at h <;>
      try dsimp only at h ⊢
    · exact absurd (Except.error.inj h) (fun hc => ExcelErr.noConfusion hc)
    case some log =>
      cases hfind : (pyRange 2 (log.maxRow + 1)).find?
          (fun r => pyEqOpt (log.cell r 1) (some (.strV bookingId))) <;>
        rw [hfind] at h <;> try dsimp only at h ⊢
      · exact absurd (Except.error.inj h) (fun hc => ExcelErr.noConfusion hc)
      case some bookingRow =>
        cases hdates : readLogDates log bookingRow <;> rw [hdates] at h <;>
          try dsimp only at h ⊢
        · exact absurd (Except.error.inj h) (fun hc => ExcelErr.noConfusion hc)
        case some dd =>
          obtain ⟨sd2, ed2⟩ := dd
          dsimp only at h ⊢
          cases hclear : clearSpans disk (log.cell bookingRow 6)
              ("C:" ++ bookingId) (iterMonthRanges sd2 ed2) <;>
            rw [hclear] at h <;> try dsimp only at h ⊢
          case error e =>
            obtain rfl := Except.error.inj h
            rcases clearSpans_err_shape (log.cell bookingRow 6) _ disk _ _
              hclear with ⟨nm, he⟩ | ⟨v, he⟩ <;> exact ExcelErr.noConfusion he
          case ok wb1 =>
            obtain ⟨hiff, -, -, hdocs⟩ :=
              saveAndValidate_spec disk wb1 (expectedSheets sd2 ed2) env ()
            exact ⟨wb1, sd2, ed2, hdocs, hiff.mp h⟩
  · unfold cancel
    cases hlog : disk.findSheet "予約ログ"
    · rfl
    case some log =>
      dsimp only
      cases hfind : (pyRange 2 (log.maxRow + 1)).find?
          (fun r => pyEqOpt (log.cell r 1) (some (.strV bookingId)))
      · rfl
      case some bookingRow =>
        dsimp only
        cases hdates : readLogDates log bookingRow
        · rfl
        case some dd =>
          obtain ⟨sd2, ed2⟩ := dd
          dsimp only
          cases hclear : clearSpans disk (log.cell bookingRow 6)
              ("C:" ++ bookingId) (iterMonthRanges sd2 ed2)
          · rfl
          case ok wb1 => exact saveAndValidate_outcome_congr disk _ _ henv ()

/-- An environment whose archive-structure check fails (corrupted save),
    with a backup present and a restore that itself fails. -/
def badEnv : SaveEnv := ⟨false, true, some 10000, 10000, true, false⟩

/-- The workbook state after `book`'s marking loop on the sample document
    (used to discharge the pre-save hypothesis concretely). -/
def sampleMarked : Workbook :=
  match markSpans sampleWb "FEデモ機A" ("C:" ++ "b1")
      (iterMonthRanges dSep10 dSep12) with
  | .ok wb => wb
  | .error _ => sampleWb

/-- Witness for C4: on the sample document with a failing archive check,
    `book` reports the persistence error and attempts the restore. -/
theorem persistence_error_spec_witness :
    (book sampleWb "FEデモ機A" dSep10 dSep12 sampleUser "b1" "now"
      badEnv).outcome = .error .persistence ∧
      (book sampleWb "FEデモ機A" dSep10 dSep12 sampleUser "b1" "now"
        badEnv).restoreAttempted = true :=
  have h := (persistence_error_spec sampleWb "FEデモ機A" dSep10 dSep12
    sampleUser "b1" "now" "b1" badEnv badEnv ⟨rfl, rfl, rfl, rfl, rfl⟩).1
    sampleMarked (by decide) rfl
  ⟨h.1.mpr (by decide), by rw [h.2]; decide⟩

/-! ## `cancel` persists exactly once (no re-open pass) -/

/-- The sample document after a successful booking `b1` of `FEデモ機A`
    for 2025-09-10..12. -/
def sampleBooked : Workbook :=
  (book sampleWb "FEデモ機A" dSep10 dSep12 sampleUser "b1"
    "2025-09-01T00:00:00" goodEnv).disk

/-- C2 counterexample: a successful `cancel` hands exactly one workbook
    state to `_safe_save_workbook` — there is no second (re-open,
    re-clear, save-again) pass. -/
theorem cancel_single_save_counterexample :
    (cancel sampleBooked "b1" goodEnv).outcome = .ok () ∧
      (cancel sampleBooked "b1" goodEnv).savedDocs.length = 1 ∧
      ¬2 ≤ (cancel sampleBooked "b1" goodEnv).savedDocs.length := by
  refine ⟨by decide, ?_, ?_⟩
  · rfl
  · intro h
    have h1 : (cancel sampleBooked "b1" goodEnv).savedDocs.length = 1 := rfl
    omega

/-- C2 (amended): `cancel` performs a single clearing sweep and persists
    at most once — one save when it reaches the Durability Layer
    (whether validation then succeeds or fails), and none on an earlier
    lookup error; there is no verification re-open pass and no second
    save. -/
theorem cancel_single_save (disk : Workbook) (bookingId : String)
    (env : SaveEnv) :
    (cancel disk bookingId env).savedDocs.length ≤ 1 ∧
    ((cancel disk bookingId env).outcome = .ok () →
      (cancel disk bookingId env).savedDocs.length = 1) := by
  unfold cancel
  cases hlog : disk.findSheet "予約ログ"
  · exact ⟨Nat.zero_le 1, fun h => Except.noConfusion h⟩
  case some log =>
    dsimp only
    cases hfind : (pyRange 2 (log.maxRow + 1)).find?
        (fun r => pyEqOpt (log.cell r 1) (some (.strV bookingId)))
    · exact ⟨Nat.zero_le 1, fun h => Except.noConfusion h⟩
    case some bookingRow =>
      dsimp only
      cases hdates : readLogDates log bookingRow
      · exact ⟨Nat.zero_le 1, fun h => Except.noConfusion h⟩
      case some dd =>
        obtain ⟨sd2, ed2⟩ := dd
        dsimp only
        cases hclear : clearSpans disk (log.cell bookingRow 6)
            ("C:" ++ bookingId) (iterMonthRanges sd2 ed2)
        · exact ⟨Nat.zero_le 1, fun h => Except.noConfusion h⟩
        case ok wb1 =>
          have hdocs : (saveAndValidate disk wb1 (expectedSheets sd2 ed2)
              env ()).savedDocs = [wb1] :=
            (saveAndValidate_spec disk wb1 (expectedSheets sd2 ed2) env ()).2.2.2
          show (saveAndValidate disk wb1 (expectedSheets sd2 ed2)
              env ()).savedDocs.length ≤ 1 ∧ _
          rw [hdocs]
          exact ⟨Nat.le_refl 1, fun _ => rfl⟩

/-- Witness for C2 (amended): the successful concrete cancel saves
    exactly once. -/
theorem cancel_single_save_witness :
    (cancel sampleBooked "b1" goodEnv).outcome = .ok () ∧
      (cancel sampleBooked "b1" goodEnv).savedDocs.length = 1 :=
  ⟨by decide, (cancel_single_save sampleBooked "b1" goodEnv).2 (by decide)⟩

/-! ## The check-then-act race in `book` (C1)

`book` runs `check_availability` *before* acquiring the file lock
(`excel_ops.py` line 593 versus the `_FileLock` at line 596) and never
re-validates inside the locked section.  Interleaving two calls so that
both availability checks read the same initial file before either
acquires the lock makes both succeed. -/

def dSep11 : Date := ⟨2025, 9, 11⟩

def dSep13 : Date := ⟨2025, 9, 13⟩

/-- The disk state after the first call's locked section. -/
def raceDisk1 : Workbook :=
  (bookLocked sampleWb "FEデモ機A" dSep10 dSep12 sampleUser "b1" "t1"
    goodEnv).disk

/-- C1 (code bug): with two overlapping `book` calls on the same device
    interleaved check-first (both pre-lock availability checks pass on
    the initial document), both locked sections then succeed — the second
    call returns a booking id instead of observing a conflict error, and
    its marker overwrites the first booking's marker on the overlap day.
    `book` is exactly this composition (`bookCheck` before the lock, then
    `bookLocked`), so no re-validation happens inside the locked
    section. -/
theorem book_check_then_act_race :
    (book sampleWb "FEデモ機A" dSep10 dSep12 sampleUser "b1" "t1"
      goodEnv).outcome = .ok "b1" ∧
    bookCheck sampleWb "FEデモ機A" dSep10 dSep12 = .ok () ∧
    bookCheck sampleWb "FEデモ機A" dSep11 dSep13 = .ok () ∧
    (bookLocked sampleWb "FEデモ機A" dSep10 dSep12 sampleUser "b1" "t1"
      goodEnv).outcome = .ok "b1" ∧
    (bookLocked raceDisk1 "FEデモ機A" dSep11 dSep13 sampleUser "b2" "t2"
      goodEnv).outcome = .ok "b2" ∧
    ((bookLocked raceDisk1 "FEデモ機A" dSep11 dSep13 sampleUser "b2" "t2"
        goodEnv).disk.findSheet "25年9月").map (fun s => s.cell 9 13)
      = some (some (.strV "C:b2")) ∧
    ((raceDisk1.findSheet "25年9月").map (fun s => s.cell 9 13)
      = some (some (.strV "C:b1"))) := by
  refine ⟨by decide, by decide, by decide, by decide, by decide, ?_, ?_⟩
  · rfl
  · rfl

/-! ## `cancel` leaves the Log Page unchanged (C9) -/

lemma find?_map_setSheet (name nm : String) (s : Sheet)
    (h : nm ≠ name) :
    ∀ l : List (String × Sheet),
      (l.map (fun p => if p.1 == name then (p.1, s) else p)).find?
          (fun p => p.1 == nm)
        = l.find? (fun p => p.1 == nm) := by
  intro l
  induction l with
  | nil => rfl
  | cons p t ih =>
    by_cases hp : p.1 == name
    · have hp' : p.1 = name := by simpa using hp
      have hnm : (p.1 == nm) = false := by
        simp [hp']
        exact fun hcon => h hcon.symm
      simp only [List.map_cons, List.find?_cons, hp, if_true, hnm]
      exact ih
    · simp only [List.map_cons, List.find?_cons, hp, if_false,
        Bool.false_eq_true]
      by_cases hnm : (p.1 == nm) = true
      · simp [hnm]
      · simp only [Bool.not_eq_true] at hnm
        simp only [hnm]
        exact ih

lemma findSheet_setSheet_ne (wb : Workbook) (name nm : String) (s : Sheet)
    (h : nm ≠ name) :
    (wb.setSheet name s).findSheet nm = wb.findSheet nm := by
  unfold Workbook.setSheet Workbook.findSheet
  rw [find?_map_setSheet name nm s h]

lemma clearSpans_findSheet (deviceName : Option Value) (pref : String)
    (nm : String) :
    ∀ wb L wb', clearSpans wb deviceName pref L = .ok wb' →
      (∀ p ∈ L, monthSheetName p.1 ≠ nm) →
      wb'.findSheet nm = wb.findSheet nm := by
  intro wb L
  induction L generalizing wb with
  | nil =>
    intro wb' h _
    obtain rfl := Except.ok.inj h
    rfl
  | cons sp rest ih =>
    obtain ⟨ms, me⟩ := sp
    intro wb' h hnames
    unfold clearSpans at h
    cases h1 : wb.findSheet (monthSheetName ms) <;>
      rw [h1] at h <;> try dsimp only at h
    · exact Except.noConfusion h
    case some sheet =>
      cases h2 : findDeviceRow sheet deviceName <;>
        rw [h2] at h <;> try dsimp only at h
      · exact Except.noConfusion h
      case some row =>
        have hrec := ih _ wb' h
          (fun p hp => hnames p (List.mem_cons_of_mem _ hp))
        rw [hrec]
        exact findSheet_setSheet_ne wb (monthSheetName ms) nm _
          (hnames (ms, me) (List.mem_cons_self _ _)).symm

lemma list_cancellable_bookings_congr (wb wb' : Workbook) (u : UserInfo)
    (h : wb'.findSheet "予約ログ" = wb.findSheet "予約ログ") :
    list_cancellable_bookings wb' u = list_cancellable_bookings wb u := by
  unfold list_cancellable_bookings
  rw [h]

/-- C9: a successful `cancel` leaves the Log Page entirely unchanged —
    the sheet object after cancelling is the very same one (so the
    booking's row is not removed and its status cell still holds
    `'予約中'`), and therefore `list_cancellable_bookings` returns exactly
    the same list for every identity, still including the cancelled
    booking. -/
theorem cancel_preserves_log (disk : Workbook) (bookingId : String)
    (env : SaveEnv) (log : Sheet) (bookingRow : Nat) (sd2 ed2 : Date)
    (hlog : disk.findSheet "予約ログ" = some log)
    (hfind : (pyRange 2 (log.maxRow + 1)).find?
        (fun r => pyEqOpt (log.cell r 1) (some (.strV bookingId)))
      = some bookingRow)
    (hdates : readLogDates log bookingRow = some (sd2, ed2))
    (hnames : ∀ p ∈ iterMonthRanges sd2 ed2, monthSheetName p.1 ≠ "予約ログ")
    (hok : (cancel disk bookingId env).outcome = .ok ()) :
    (cancel disk bookingId env).disk.findSheet "予約ログ" = some log ∧
      ∀ u : UserInfo,
        list_cancellable_bookings (cancel disk bookingId env).disk u
          = list_cancellable_bookings disk u := by
  have hred : cancel disk bookingId env
      = match clearSpans disk (log.cell bookingRow 6) ("C:" ++ bookingId)
            (iterMonthRanges sd2 ed2) with
        | .error e => ⟨.error e, disk, false, []⟩
        | .ok wb1 => saveAndValidate disk wb1 (expectedSheets sd2 ed2) env () := by
    unfold cancel
    rw [hlog]
    dsimp only
    rw [hfind]
    dsimp only
    rw [hdates]
  rw [hred] at hok ⊢
  cases hclear : clearSpans disk (log.cell bookingRow 6) ("C:" ++ bookingId)
      (iterMonthRanges sd2 ed2) <;> rw [hclear] at hok <;>
    try dsimp only at hok ⊢
  · exact absurd hok (fun hcon => Except.noConfusion hcon)
  case ok wb1 =>
    have hvalid : validateOk wb1 env (expectedSheets sd2 ed2) = true :=
      ((saveAndValidate_spec disk wb1 (expectedSheets sd2 ed2) env ()).2.1).mp
        hok
    have hdisk : (saveAndValidate disk wb1 (expectedSheets sd2 ed2)
        env ()).disk = wb1 := by
      unfold saveAndValidate
      rw [if_pos hvalid]
    rw [hdisk]
    have hfs : wb1.findSheet "予約ログ" = disk.findSheet "予約ログ" :=
      clearSpans_findSheet (log.cell bookingRow 6) _ _ disk _ wb1 hclear
        hnames
    refine ⟨by rw [hfs, hlog], ?_⟩
    intro u
    exact list_cancellable_bookings_congr disk wb1 u (by rw [hfs])

/-- The Log Page of the booked sample document. -/
def sampleLog : Sheet :=
  match sampleBooked.findSheet "予約ログ" with
  | some s => s
  | none => Sheet.empty

/-- Witness for C9: cancelling the sample booking leaves the log sheet in
    place and the cancellable-bookings list (which still contains the
    cancelled booking) unchanged. -/
theorem cancel_preserves_log_witness :
    (cancel sampleBooked "b1" goodEnv).outcome = .ok () ∧
      list_cancellable_bookings sampleBooked sampleUser
        = [⟨"b1", "FEデモ機A", "2025-09-10", "2025-09-12"⟩] ∧
      list_cancellable_bookings (cancel sampleBooked "b1" goodEnv).disk
          sampleUser
        = list_cancellable_bookings sampleBooked sampleUser :=
  ⟨by decide, by decide,
    (cancel_preserves_log sampleBooked "b1" goodEnv sampleLog 2 dSep10 dSep12
      rfl (by decide) (by decide) (by decide) (by decide)).2 sampleUser⟩

/-! ## Round trip of the log's date strings -/

lemma digitVal_digitChar {m : Nat} (h : m < 10) :
    digitVal (Nat.digitChar m) = m ∧ isAsciiDigit (Nat.digitChar m) = true := by
  interval_cases m <;> exact ⟨by decide, by decide⟩

lemma toDigitsCore_foldl (f : Nat → Char → Nat)
    (hf : ∀ a c, f a c = a * 10 + digitVal c) :
    ∀ fuel n ds acc, n < 10 ^ (fuel + 1) →
      ∃ k, (Nat.toDigitsCore 10 (fuel + 1) n ds).foldl f acc
        = ds.foldl f (acc * 10 ^ k + n) ∧ 0 < k := by
  intro fuel
  induction fuel with
  | zero =>
    intro n ds acc h
    have hz : n / 10 = 0 := Nat.div_eq_of_lt (by simpa using h)
    unfold Nat.toDigitsCore
    rw [if_pos hz]
    have hmod : n % 10 = n := Nat.mod_eq_of_lt (by simpa using h)
    refine ⟨1, ?_, by omega⟩
    simp only [List.foldl_cons, hf, pow_one]
    rw [(digitVal_digitChar (Nat.mod_lt n (by omega))).1, hmod]
  | succ fuel ih =>
    intro n ds acc h
    unfold Nat.toDigitsCore
    by_cases hz : n / 10 = 0
    · rw [if_pos hz]
      have hn : n < 10 := by omega
      have hmod : n % 10 = n := Nat.mod_eq_of_lt hn
      refine ⟨1, ?_, by omega⟩
      simp only [List.foldl_cons, hf, pow_one]
      rw [(digitVal_digitChar (Nat.mod_lt n (by omega))).1, hmod]
    · rw [if_neg hz]
      have hlt : n / 10 < 10 ^ (fuel + 1) := by
        apply Nat.div_lt_of_lt_mul
        calc n < 10 ^ (fuel + 1 + 1) := h
        _ = 10 * 10 ^ (fuel + 1) := by ring
      obtain ⟨k, hk, hkpos⟩ :=
        ih (n / 10) (Nat.digitChar (n % 10) :: ds) acc hlt
      refine ⟨k + 1, ?_, by omega⟩
      rw [hk]
      simp only [List.foldl_cons, hf]
      rw [(digitVal_digitChar (Nat.mod_lt n (by omega))).1]
      congr 1
      have hdm := Nat.div_add_mod n 10
      ring_nf
      omega

lemma toDigitsCore_ne_nil :
    ∀ fuel n ds, Nat.toDigitsCore 10 (fuel + 1) n ds ≠ [] := by
  intro fuel
  induction fuel with
  | zero =>
    intro n ds
    unfold Nat.toDigitsCore
    by_cases hz : n / 10 = 0
    · rw [if_pos hz]
      simp
    · rw [if_neg hz]
      unfold Nat.toDigitsCore
      simp
  | succ fuel ih =>
    intro n ds
    unfold Nat.toDigitsCore
    by_cases hz : n / 10 = 0
    · rw [if_pos hz]
      simp
    · rw [if_neg hz]
      exact ih (n / 10) _

lemma toDigitsCore_digits :
    ∀ fuel n ds, (∀ c ∈ ds, isAsciiDigit c = true) →
      ∀ c ∈ Nat.toDigitsCore 10 fuel n ds, isAsciiDigit c = true := by
  intro fuel
  induction fuel with
  | zero => intro n ds hds; exact hds
  | succ fuel ih =>
    intro n ds hds c hc
    unfold Nat.toDigitsCore at hc
    have hdig := (digitVal_digitChar (Nat.mod_lt n (by omega))).2
    by_cases hz : n / 10 = 0
    · rw [if_pos hz] at hc
      rcases List.mem_cons.mp hc with rfl | hm
      · exact hdig
      · exact hds c hm
    · rw [if_neg hz] at hc
      refine ih (n / 10) _ ?_ c hc
      intro c2 hc2
      rcases List.mem_cons.mp hc2 with rfl | hm
      · exact hdig
      · exact hds c2 hm

lemma nat_lt_pow (n : Nat) : n < 10 ^ (n + 1) := by
  calc n < 2 ^ n := Nat.lt_two_pow n
  _ ≤ 10 ^ n := Nat.pow_le_pow_left (by omega) n
  _ ≤ 10 ^ (n + 1) := Nat.pow_le_pow_right (by omega) (by omega)

lemma data_asString (l : List Char) : (l.asString).data = l := rfl

lemma parseNatChars_repr (n : Nat) :
    parseNatChars ((Nat.repr n).data) = some n := by
  have hne := toDigitsCore_ne_nil n n []
  have hdig := toDigitsCore_digits (n + 1) n [] (by simp)
  obtain ⟨k, hk, -⟩ := toDigitsCore_foldl
    (fun a c => a * 10 + digitVal c) (fun a c => rfl) n n [] 0
    (nat_lt_pow n)
  unfold parseNatChars
  rw [if_pos]
  · congr 1
    show (Nat.toDigitsCore 10 (n + 1) n []).foldl _ 0 = n
    rw [hk]
    simp
  · exact ⟨hne, List.all_eq_true.mpr (fun c hc => hdig c hc)⟩

lemma parseNatChars_pad2 (n : Nat) :
    parseNatChars ((pad2 n).data) = some n := by
  unfold pad2
  by_cases h : n < 10
  · rw [if_pos h]
    have hne := toDigitsCore_ne_nil n n []
    have hdig := toDigitsCore_digits (n + 1) n [] (by simp)
    obtain ⟨k, hk, -⟩ := toDigitsCore_foldl
      (fun a c => a * 10 + digitVal c) (fun a c => rfl) n n [] 0
      (nat_lt_pow n)
    unfold parseNatChars
    rw [if_pos]
    · congr 1
      show (("0" ++ Nat.repr n).data).foldl _ 0 = n
      have hdata : ("0" ++ Nat.repr n).data = '0' :: (Nat.repr n).data := by
        rfl
      rw [hdata]
      simp only [List.foldl_cons]
      show (Nat.toDigitsCore 10 (n + 1) n []).foldl _ (0 * 10 + digitVal '0')
        = n
      rw [show (0 * 10 + digitVal '0') = 0 from by decide, hk]
      simp
    · constructor
      · simp
      · rw [show ("0" ++ Nat.repr n).data = '0' :: (Nat.repr n).data from rfl]
        simp only [List.all_cons, Bool.and_eq_true]
        exact ⟨by decide, List.all_eq_true.mpr (fun c hc => hdig c hc)⟩
  · rw [if_neg h]
    exact parseNatChars_repr n

lemma isAsciiDigit_ne_dash {c : Char} (h : isAsciiDigit c = true) :
    c ≠ '-' := by
  intro hc
  subst hc
  simp [isAsciiDigit] at h

lemma splitOnDash_cons (c : Char) (t : List Char) :
    splitOnDash (c :: t)
      = if c = '-' then [] :: splitOnDash t
        else
          match splitOnDash t with
          | g :: gs => (c :: g) :: gs
          | [] => [[c]] := rfl

lemma splitOnDash_no_dash :
    ∀ l : List Char, (∀ c ∈ l, c ≠ '-') → splitOnDash l = [l] := by
  intro l
  induction l with
  | nil => intro; rfl
  | cons c t ih =>
    intro h
    unfold splitOnDash
    rw [if_neg (h c (List.mem_cons_self _ _))]
    rw [ih (fun c' hc' => h c' (List.mem_cons_of_mem _ hc'))]

lemma splitOnDash_append :
    ∀ l1 : List Char, (∀ c ∈ l1, c ≠ '-') →
      ∀ l2, splitOnDash (l1 ++ '-' :: l2) = l1 :: splitOnDash l2 := by
  intro l1
  induction l1 with
  | nil =>
    intro _ l2
    rw [List.nil_append, splitOnDash_cons, if_pos rfl]
  | cons c t ih =>
    intro h l2
    rw [List.cons_append, splitOnDash_cons,
      if_neg (h c (List.mem_cons_self _ _)),
      ih (fun c2 hc2 => h c2 (List.mem_cons_of_mem _ hc2)) l2]

lemma repr_no_dash (n : Nat) : ∀ c ∈ (Nat.repr n).data, c ≠ '-' :=
  fun c hc => isAsciiDigit_ne_dash
    (toDigitsCore_digits (n + 1) n [] (by simp) c hc)

lemma pad2_no_dash (n : Nat) : ∀ c ∈ (pad2 n).data, c ≠ '-' := by
  unfold pad2
  by_cases h : n < 10
  · rw [if_pos h]
    intro c hc
    rw [show ("0" ++ Nat.repr n).data = '0' :: (Nat.repr n).data from rfl]
      at hc
    rcases List.mem_cons.mp hc with rfl | hm
    · decide
    · exact repr_no_dash n c hm
  · rw [if_neg h]
    exact repr_no_dash n

/-- The log's `strftime`/`strptime` round trip: a valid date printed to
    the log row parses back to itself. -/
lemma dateFromStr_dateToStr (d : Date) (hd : validDate d) :
    dateFromStr (dateToStr d) = some d := by
  obtain ⟨h1, h2, h3, h4, h5, h6⟩ := hd
  unfold dateFromStr dateToStr
  have hdata : (Nat.repr d.year ++ "-" ++ pad2 d.month ++ "-"
      ++ pad2 d.day).data
      = (Nat.repr d.year).data ++ '-' :: ((pad2 d.month).data ++ '-'
        :: (pad2 d.day).data) := by
    show ((((Nat.repr d.year ++ "-") ++ pad2 d.month) ++ "-")
      ++ pad2 d.day).data = _
    rw [String.data_append, String.data_append, String.data_append,
      String.data_append]
    simp
  rw [hdata]
  rw [splitOnDash_append _ (repr_no_dash d.year),
    splitOnDash_append _ (pad2_no_dash d.month),
    splitOnDash_no_dash _ (pad2_no_dash d.day)]
  dsimp only
  rw [parseNatChars_repr, parseNatChars_pad2, parseNatChars_pad2]
  dsimp only
  rw [if_pos ⟨h1, h2, h3, h4, h5, h6⟩]
  try rfl

/-! ## Sheet and workbook frame lemmas -/

lemma setCell_cell (s : Sheet) (r c : Nat) (v : Option Value) (r' c' : Nat) :
    (s.setCell r c v).cell r' c'
      = if r' = r ∧ c' = c then v else s.cell r' c' := rfl

lemma setCell_maxRow (s : Sheet) (r c : Nat) (v : Option Value) :
    (s.setCell r c v).maxRow = max s.maxRow r := rfl

lemma setCell_maxCol (s : Sheet) (r c : Nat) (v : Option Value) :
    (s.setCell r c v).maxCol = max s.maxCol c := rfl

lemma find?_map_setSheet_eq (name : String) (s : Sheet) :
    ∀ l : List (String × Sheet),
      (l.find? (fun p => p.1 == name)).isSome = true →
      ((l.map (fun p => if p.1 == name then (p.1, s) else p)).find?
        (fun p => p.1 == name)).map (·.2) = some s := by
  intro l
  induction l with
  | nil => intro h; simp at h
  | cons p t ih =>
    intro h
    by_cases hp : (p.1 == name) = true
    · simp only [List.map_cons, List.find?_cons, hp, if_true]
      rfl
    · simp only [List.find?_cons, hp, Bool.false_eq_true, if_false] at h
      simp only [List.map_cons, List.find?_cons, hp, Bool.false_eq_true,
        if_false]
      exact ih h

lemma findSheet_setSheet_eq (wb : Workbook) (name : String) (s : Sheet)
    (h : (wb.findSheet name).isSome = true) :
    (wb.setSheet name s).findSheet name = some s := by
  unfold Workbook.findSheet Workbook.setSheet
  unfold Workbook.findSheet at h
  apply find?_map_setSheet_eq
  cases hf : wb.sheets.find? (fun p => p.1 == name)
  · rw [hf] at h
    simp at h
  · rfl

lemma findSheet_addSheet_ne (wb : Workbook) (name nm : String) (s : Sheet)
    (h : nm ≠ name) :
    (wb.addSheet name s).findSheet nm = wb.findSheet nm := by
  unfold Workbook.findSheet Workbook.addSheet
  rw [List.find?_append]
  have : List.find? (fun p => p.1 == nm) [(name, s)] = none := by
    simp only [List.find?_cons, List.find?_nil]
    have : ((name, s).1 == nm) = false := by
      simp only [beq_eq_false_iff_ne, ne_eq]
      exact fun hc => h hc.symm
    rw [this]
  rw [this]
  cases wb.sheets.find? (fun p => p.1 == nm) <;> rfl

lemma findSheet_addSheet_self (wb : Workbook) (name : String) (s : Sheet)
    (h : wb.findSheet name = none) :
    (wb.addSheet name s).findSheet name = some s := by
  unfold Workbook.findSheet Workbook.addSheet
  unfold Workbook.findSheet at h
  rw [List.find?_append]
  have hnone : wb.sheets.find? (fun p => p.1 == name) = none := by
    cases hf : wb.sheets.find? (fun p => p.1 == name)
    · rfl
    · rw [hf] at h
      exact Option.noConfusion h
  rw [hnone]
  simp

lemma sheetnames_contains_iff (wb : Workbook) (nm : String) :
    wb.sheetnames.contains nm = (wb.findSheet nm).isSome := by
  unfold Workbook.sheetnames Workbook.findSheet
  induction wb.sheets with
  | nil => rfl
  | cons p t ih =>
    by_cases hp : (p.1 == nm) = true
    · have hp' : (nm == p.1) = true := by
        have := eq_of_beq hp
        simp [this]
      simp [List.find?_cons, hp, hp']
    · have hpf : (p.1 == nm) = false := by
        rw [← Bool.not_eq_true]
        exact hp
      have hp' : (nm == p.1) = false :=
        beq_eq_false_iff_ne.mpr
          (fun hc => (beq_eq_false_iff_ne.mp hpf) hc.symm)
      simp only [List.map_cons, List.contains_cons, hp', Bool.false_or,
        List.find?_cons, hpf, Bool.false_eq_true, if_false]
      exact ih

/-! ## The log sheet after `_ensure_booking_log_sheet` + the appended row -/

lemma ensure_findSheet_ne (wb : Workbook) (nm : String)
    (h : nm ≠ "予約ログ") :
    (ensureBookingLogSheet wb).findSheet nm = wb.findSheet nm := by
  unfold ensureBookingLogSheet
  split
  · rfl
  · exact findSheet_addSheet_ne wb _ nm _ h

lemma ensure_findSheet_log (wb : Workbook) :
    (∀ log, wb.findSheet "予約ログ" = some log →
      (ensureBookingLogSheet wb).findSheet "予約ログ" = some log) ∧
    (wb.findSheet "予約ログ" = none →
      ∃ logE, (ensureBookingLogSheet wb).findSheet "予約ログ" = some logE ∧
        logE.maxRow = 1 ∧ ∀ r c, 2 ≤ r → logE.cell r c = none) := by
  unfold ensureBookingLogSheet
  by_cases hc : wb.sheetnames.contains "予約ログ" = true
  · rw [if_pos hc]
    rw [sheetnames_contains_iff] at hc
    refine ⟨fun log h => h, fun hnone => ?_⟩
    rw [hnone] at hc
    simp at hc
  · rw [if_neg hc]
    rw [sheetnames_contains_iff] at hc
    constructor
    · intro log h
      rw [h] at hc
      simp at hc
    · intro hnone
      refine ⟨_, findSheet_addSheet_self wb _ _ hnone, rfl, ?_⟩
      intro r c hr
      have hr1 : ¬(r = 1) := by omega
      simp [logHeaderSheet, Sheet.setCell, Sheet.empty, hr1]

lemma appendLogRow_findSheet_ne (wb : Workbook)
    (bid now dev sdStr edStr : String) (u : UserInfo) (nm : String)
    (h : nm ≠ "予約ログ") :
    (appendLogRow wb bid now dev sdStr edStr u).findSheet nm
      = wb.findSheet nm := by
  unfold appendLogRow
  cases hf : wb.findSheet "予約ログ"
  · rfl
  · exact findSheet_setSheet_ne wb _ nm _ h

lemma appendLogRow_spec (wb : Workbook) (bid now dev sdStr edStr : String)
    (u : UserInfo) (logE : Sheet)
    (hlog : wb.findSheet "予約ログ" = some logE) :
    ∃ logN,
      (appendLogRow wb bid now dev sdStr edStr u).findSheet "予約ログ"
        = some logN ∧
      logN.maxRow = logE.maxRow + 1 ∧
      logN.cell (logE.maxRow + 1) 1 = some (.strV bid) ∧
      logN.cell (logE.maxRow + 1) 6 = some (.strV dev) ∧
      logN.cell (logE.maxRow + 1) 7 = some (.strV sdStr) ∧
      logN.cell (logE.maxRow + 1) 8 = some (.strV edStr) ∧
      (∀ r c, r ≠ logE.maxRow + 1 → logN.cell r c = logE.cell r c) := by
  unfold appendLogRow
  rw [hlog]
  dsimp only
  refine ⟨_, findSheet_setSheet_eq wb _ _ (by rw [hlog]; rfl), ?_, ?_, ?_,
    ?_, ?_, ?_⟩
  · simp only [setCell_maxRow]
    omega
  · simp only [setCell_cell]
    norm_num
  · simp only [setCell_cell]
    norm_num
  · simp only [setCell_cell]
    norm_num
  · simp only [setCell_cell]
    norm_num
  · intro r c hr
    simp only [setCell_cell, hr, false_and, if_false]

/-! ## The marking fold of `book` -/

lemma markFold_spec (marker : String) (row : Nat) :
    ∀ (cols : List Nat) (sheet : Sheet),
      (∀ c ∈ cols, 3 ≤ c ∧ c ≤ sheet.maxCol) → row ≤ sheet.maxRow →
      (cols.foldl (fun s c => s.setCell row c (some (.strV marker)))
        sheet).maxRow = sheet.maxRow ∧
      (cols.foldl (fun s c => s.setCell row c (some (.strV marker)))
        sheet).maxCol = sheet.maxCol ∧
      (∀ r c, r ≠ row →
        (cols.foldl (fun s c => s.setCell row c (some (.strV marker)))
          sheet).cell r c = sheet.cell r c) ∧
      (∀ c, c ∉ cols →
        (cols.foldl (fun s c => s.setCell row c (some (.strV marker)))
          sheet).cell row c = sheet.cell row c) ∧
      (∀ c ∈ cols,
        (cols.foldl (fun s c => s.setCell row c (some (.strV marker)))
          sheet).cell row c = some (.strV marker)) := by
  intro cols
  induction cols with
  | nil =>
    intro sheet _ _
    exact ⟨rfl, rfl, fun r c _ => rfl, fun c _ => rfl, fun c hc => by
      simp at hc⟩
  | cons c0 t ih =>
    intro sheet hcols hrow
    have hc0 := hcols c0 (List.mem_cons_self _ _)
    have hmr : (sheet.setCell row c0 (some (.strV marker))).maxRow
        = sheet.maxRow := by
      rw [setCell_maxRow]
      omega
    have hmc : (sheet.setCell row c0 (some (.strV marker))).maxCol
        = sheet.maxCol := by
      rw [setCell_maxCol]
      omega
    obtain ⟨ih1, ih2, ih3, ih4, ih5⟩ :=
      ih (sheet.setCell row c0 (some (.strV marker)))
        (fun c hc => by rw [hmc]; exact hcols c (List.mem_cons_of_mem _ hc))
        (by rw [hmr]; exact hrow)
    simp only [List.foldl_cons]
    refine ⟨by rw [ih1, hmr], by rw [ih2, hmc], ?_, ?_, ?_⟩
    · intro r c hr
      rw [ih3 r c hr, setCell_cell, if_neg (fun hcon => hr hcon.1)]
    · intro c hc
      have hct : c ∉ t := fun hm => hc (List.mem_cons_of_mem _ hm)
      have hcc0 : c ≠ c0 := fun he => hc (he ▸ List.mem_cons_self _ _)
      rw [ih4 c hct, setCell_cell, if_neg (fun hcon => hcc0 hcon.2)]
    · intro c hc
      rcases List.mem_cons.mp hc with rfl | hm
      · by_cases hct : c ∈ t
        · exact ih5 c hct
        · rw [ih4 c hct, setCell_cell, if_pos ⟨rfl, rfl⟩]
      · exact ih5 c hm

/-! ## Resolution bounds and congruence -/

lemma findHeaderIn_spec (sheet : Sheet) (hdrRow d c : Nat)
    (h : findHeaderIn sheet hdrRow d = some c) :
    3 ≤ c ∧ c ≤ sheet.maxCol ∧
      normalizeHeaderDay (sheet.cell hdrRow c) = some (d : Int) := by
  unfold findHeaderIn at h
  have hmem := List.mem_of_find?_eq_some h
  have hpred := List.find?_some h
  rw [pyRange, List.mem_range'_1] at hmem
  refine ⟨by omega, by omega, ?_⟩
  exact eq_of_beq hpred

lemma getDateColumnFallback_spec (sheet : Sheet) (d : Nat) :
    ∀ hdrRows c, getDateColumnFallback sheet d hdrRows = some c →
      ∃ hdrRow ∈ hdrRows, findHeaderIn sheet hdrRow d = some c := by
  intro hdrRows
  induction hdrRows with
  | nil => intro c h; exact Option.noConfusion h
  | cons hr t ih =>
    intro c h
    unfold getDateColumnFallback at h
    by_cases hle : hr ≤ sheet.maxRow
    · rw [if_pos hle] at h
      cases hf : findHeaderIn sheet hr d <;> rw [hf] at h
      · obtain ⟨r, hrm, hfr⟩ := ih c h
        exact ⟨r, List.mem_cons_of_mem _ hrm, hfr⟩
      · obtain rfl := Option.some.inj h
        exact ⟨hr, List.mem_cons_self _ _, hf⟩
    · rw [if_neg hle] at h
      obtain ⟨r, hrm, hfr⟩ := ih c h
      exact ⟨r, List.mem_cons_of_mem _ hrm, hfr⟩

lemma getDateColumn_bounds (sheet : Sheet) (d c : Nat)
    (h : getDateColumn sheet d = some c) :
    3 ≤ c ∧ c ≤ sheet.maxCol := by
  unfold getDateColumn at h
  cases hf : findHeaderIn sheet 8 d <;> rw [hf] at h
  · obtain ⟨hr, -, hfr⟩ := getDateColumnFallback_spec sheet d _ c h
    obtain ⟨h1, h2, -⟩ := findHeaderIn_spec sheet hr d c hfr
    exact ⟨h1, h2⟩
  · obtain rfl := Option.some.inj h
    obtain ⟨h1, h2, -⟩ := findHeaderIn_spec sheet 8 d _ hf
    exact ⟨h1, h2⟩

lemma getDateColumn_primary (sheet : Sheet) (d c : Nat)
    (hne : findHeaderIn sheet 8 d ≠ none)
    (h : getDateColumn sheet d = some c) :
    normalizeHeaderDay (sheet.cell 8 c) = some (d : Int) := by
  unfold getDateColumn at h
  cases hf : findHeaderIn sheet 8 d <;> rw [hf] at h
  · exact absurd hf hne
  · obtain rfl := Option.some.inj h
    exact (findHeaderIn_spec sheet 8 d _ hf).2.2

lemma getDateColumnsAux_mem (sheet : Sheet) :
    ∀ ds cols, getDateColumnsAux sheet ds = .ok cols →
      ∀ c ∈ cols, ∃ d ∈ ds, getDateColumn sheet d = some c := by
  intro ds
  induction ds with
  | nil =>
    intro cols h c hc
    obtain rfl := Except.ok.inj h
    simp at hc
  | cons d t ih =>
    intro cols h c hc
    unfold getDateColumnsAux at h
    cases hg : getDateColumn sheet d <;> rw [hg] at h
    · exact Except.noConfusion h
    case some c0 =>
      cases ht : getDateColumnsAux sheet t <;> rw [ht] at h
      · exact Except.noConfusion h
      case ok cs =>
        obtain rfl := Except.ok.inj h
        rcases List.mem_cons.mp hc with rfl | hm
        · exact ⟨d, List.mem_cons_self _ _, hg⟩
        · obtain ⟨d', hd', hg'⟩ := ih cs ht c hm
          exact ⟨d', List.mem_cons_of_mem _ hd', hg'⟩

lemma getDateColumns_mem (sheet : Sheet) (ms me : Date) (cols : List Nat)
    (h : getDateColumns sheet ms me = .ok cols) :
    ∀ c ∈ cols, ∃ d, ms.day ≤ d ∧ d ≤ me.day ∧
      getDateColumn sheet d = some c := by
  intro c hc
  obtain ⟨d, hd, hg⟩ := getDateColumnsAux_mem sheet _ cols h c hc
  rw [pyRange, List.mem_range'_1] at hd
  exact ⟨d, by omega, by omega, hg⟩

lemma findDeviceRow_bounds (sheet : Sheet) (v : Option Value) (r : Nat)
    (h : findDeviceRow sheet v = some r) : 9 ≤ r ∧ r ≤ sheet.maxRow := by
  unfold findDeviceRow at h
  have hmem := List.mem_of_find?_eq_some h
  rw [pyRange, List.mem_range'_1] at hmem
  exact ⟨by omega, by omega⟩

lemma findDeviceRow_congr (s1 s2 : Sheet) (hmax : s1.maxRow = s2.maxRow)
    (hcells : ∀ r, s1.cell r 2 = s2.cell r 2) (v : Option Value) :
    findDeviceRow s1 v = findDeviceRow s2 v := by
  unfold findDeviceRow
  rw [hmax]
  have : (fun r => pyEqOpt (s1.cell r 2) v)
      = (fun r => pyEqOpt (s2.cell r 2) v) :=
    funext (fun r => by rw [hcells r])
  rw [this]

/-! ## Span-loop characterisations under distinct page names -/

lemma markSpans_findSheet_ne (dev marker nm : String) :
    ∀ wb L wb', markSpans wb dev marker L = .ok wb' →
      (∀ p ∈ L, monthSheetName p.1 ≠ nm) →
      wb'.findSheet nm = wb.findSheet nm := by
  intro wb L
  induction L generalizing wb with
  | nil =>
    intro wb' h _
    obtain rfl := Except.ok.inj h
    rfl
  | cons sp rest ih =>
    obtain ⟨ms, me⟩ := sp
    intro wb' h hnames
    unfold markSpans at h
    cases h1 : wb.findSheet (monthSheetName ms) <;>
      rw [h1] at h <;> try dsimp only at h
    · exact Except.noConfusion h
    case some sheet =>
      cases h2 : findDeviceRow sheet (some (.strV dev)) <;>
        rw [h2] at h <;> try dsimp only at h
      · exact Except.noConfusion h
      case some row =>
        cases h3 : getDateColumns sheet ms me <;>
          rw [h3] at h <;> try dsimp only at h
        · exact Except.noConfusion h
        case ok cols =>
          have hrec := ih _ wb' h
            (fun p hp => hnames p (List.mem_cons_of_mem _ hp))
          rw [hrec]
          exact findSheet_setSheet_ne wb (monthSheetName ms) nm _
            (hnames (ms, me) (List.mem_cons_self _ _)).symm

lemma markSpans_result (dev marker : String) :
    ∀ L wb wb', markSpans wb dev marker L = .ok wb' →
      ((L.map (fun p => monthSheetName p.1)).Nodup) →
      ∀ p ∈ L, ∀ sheet0, wb.findSheet (monthSheetName p.1) = some sheet0 →
        ∃ row cols, findDeviceRow sheet0 (some (.strV dev)) = some row ∧
          getDateColumns sheet0 p.1 p.2 = .ok cols ∧
          wb'.findSheet (monthSheetName p.1)
            = some (cols.foldl
                (fun s c => s.setCell row c (some (.strV marker))) sheet0) := by
  intro L
  induction L with
  | nil => intro wb wb' _ _ p hp; simp at hp
  | cons sp rest ih =>
    obtain ⟨ms, me⟩ := sp
    intro wb wb' h hnodup p hp sheet0 hsheet0
    unfold markSpans at h
    cases h1 : wb.findSheet (monthSheetName ms) <;>
      rw [h1] at h <;> try dsimp only at h
    · exact Except.noConfusion h
    case some sheet =>
      cases h2 : findDeviceRow sheet (some (.strV dev)) <;>
        rw [h2] at h <;> try dsimp only at h
      · exact Except.noConfusion h
      case some row =>
        cases h3 : getDateColumns sheet ms me <;>
          rw [h3] at h <;> try dsimp only at h
        · exact Except.noConfusion h
        case ok cols =>
          rw [List.map_cons, List.nodup_cons] at hnodup
          obtain ⟨hhead, htail⟩ := hnodup
          rcases List.mem_cons.mp hp with rfl | hp'
          · obtain rfl : sheet = sheet0 := by
              rw [h1] at hsheet0
              exact Option.some.inj hsheet0
            refine ⟨row, cols, h2, h3, ?_⟩
            have hothers : ∀ q ∈ rest, monthSheetName q.1
                ≠ monthSheetName (ms, me).1 := by
              intro q hq hcon
              exact hhead (hcon ▸ List.mem_map_of_mem _ hq)
            rw [markSpans_findSheet_ne dev marker _ _ rest wb' h hothers]
            exact findSheet_setSheet_eq wb _ _ (by rw [h1]; rfl)
          · have hne : monthSheetName p.1 ≠ monthSheetName ms := by
              intro hcon
              exact hhead (hcon ▸ List.mem_map_of_mem _ hp')
            refine ih _ wb' h htail p hp' sheet0 ?_
            rw [findSheet_setSheet_ne wb (monthSheetName ms) _ _ hne]
            exact hsheet0

lemma clearSpans_result (deviceName : Option Value) (pref : String) :
    ∀ L wb wb', clearSpans wb deviceName pref L = .ok wb' →
      ((L.map (fun p => monthSheetName p.1)).Nodup) →
      ∀ p ∈ L, ∀ sheetB, wb.findSheet (monthSheetName p.1) = some sheetB →
        ∃ row, findDeviceRow sheetB deviceName = some row ∧
          wb'.findSheet (monthSheetName p.1)
            = some (clearSpan sheetB row pref p.1 p.2) := by
  intro L
  induction L with
  | nil => intro wb wb' _ _ p hp; simp at hp
  | cons sp rest ih =>
    obtain ⟨ms, me⟩ := sp
    intro wb wb' h hnodup p hp sheetB hsheetB
    unfold clearSpans at h
    cases h1 : wb.findSheet (monthSheetName ms) <;>
      rw [h1] at h <;> try dsimp only at h
    · exact Except.noConfusion h
    case some sheet =>
      cases h2 : findDeviceRow sheet deviceName <;>
        rw [h2] at h <;> try dsimp only at h
      · exact Except.noConfusion h
      case some row =>
        rw [List.map_cons, List.nodup_cons] at hnodup
        obtain ⟨hhead, htail⟩ := hnodup
        rcases List.mem_cons.mp hp with rfl | hp'
        · obtain rfl : sheet = sheetB := by
            rw [h1] at hsheetB
            exact Option.some.inj hsheetB
          refine ⟨row, h2, ?_⟩
          have hothers : ∀ q ∈ rest, monthSheetName q.1
              ≠ monthSheetName (ms, me).1 := by
            intro q hq hcon
            exact hhead (hcon ▸ List.mem_map_of_mem _ hq)
          rw [clearSpans_findSheet deviceName pref _ _ _ wb' h hothers]
          exact findSheet_setSheet_eq wb _ _ (by rw [h1]; rfl)
        · have hne : monthSheetName p.1 ≠ monthSheetName ms := by
            intro hcon
            exact hhead (hcon ▸ List.mem_map_of_mem _ hp')
          refine ih _ wb' h htail p hp' sheetB ?_
          rw [findSheet_setSheet_ne wb (monthSheetName ms) _ _ hne]
          exact hsheetB

/-! ## The clearing sweep is a no-op on cell values -/

lemma clearStep_id (row : Nat) (pref : String) (ms me : Date)
    (sh : Sheet) (c : Nat) : clearStep row pref ms me sh c = sh := by
  unfold clearStep
  cases hn : normalizeHeaderDay (sh.cell 8 c) with
  | none => rfl
  | some day =>
    dsimp only
    split
    · cases hc : sh.cell row c with
      | none => rfl
      | some v =>
        cases v with
        | strV s =>
          dsimp only
          split <;> rfl
        | intV n => rfl
        | floatV q => rfl
        | dateV d => rfl
        | otherV => rfl
    · rfl

lemma clearSpan_id (sheet : Sheet) (row : Nat) (pref : String)
    (ms me : Date) : clearSpan sheet row pref ms me = sheet := by
  unfold clearSpan
  have hfold : ∀ (l : List Nat) (sh : Sheet),
      l.foldl (clearStep row pref ms me) sh = sh := by
    intro l
    induction l with
    | nil => intro sh; rfl
    | cons c0 t ih =>
      intro sh
      rw [List.foldl_cons, clearStep_id]
      exact ih sh
  exact hfold _ sheet

/-- `find?` over a contiguous range picks the last element when the
    predicate is false everywhere before it. -/
lemma find?_range'_last (p : Nat → Bool) :
    ∀ n s, (∀ i, s ≤ i → i < s + n → p i = false) → p (s + n) = true →
      (List.range' s (n + 1)).find? p = some (s + n) := by
  intro n
  induction n with
  | zero =>
    intro s _ htrue
    rw [List.range'_one, List.find?_cons]
    rw [Nat.add_zero] at htrue ⊢
    rw [htrue]
  | succ k ih =>
    intro s hfalse htrue
    rw [List.range'_succ, List.find?_cons]
    have hs : p s = false := hfalse s (Nat.le_refl s) (by omega)
    rw [hs]
    have := ih (s + 1) (fun i h1 h2 => hfalse i (by omega) (by omega))
      (by rw [show s + 1 + k = s + (k + 1) by omega]; exact htrue)
    rw [show s + (k + 1) = s + 1 + k by omega]
    exact this

lemma saveAndValidate_ok_disk (disk wb : Workbook) (expected : List String)
    (env : SaveEnv) (ret r : α)
    (h : (saveAndValidate disk wb expected env ret).outcome = .ok r) :
    (saveAndValidate disk wb expected env ret).disk = wb := by
  unfold saveAndValidate at h ⊢
  by_cases hv : validateOk wb env expected = true
  · rw [if_pos hv]
  · rw [if_neg hv] at h
    dsimp only at h
    exact Except.noConfusion h

/-- A successful `book` ends with the marked-and-logged workbook on disk. -/
lemma book_ok_disk (wb : Workbook) (dev : String) (sd ed : Date)
    (u : UserInfo) (bid now : String) (env : SaveEnv) (r : String)
    (h : (book wb dev sd ed u bid now env).outcome = .ok r) :
    ∃ wb1, markSpans wb dev ("C:" ++ bid) (iterMonthRanges sd ed) = .ok wb1 ∧
      (book wb dev sd ed u bid now env).disk
        = appendLogRow (ensureBookingLogSheet wb1) bid now dev
            (dateToStr sd) (dateToStr ed) u := by
  unfold book at h ⊢
  cases hchk : bookCheck wb dev sd ed with
  | error e =>
    rw [hchk] at h
    dsimp only at h
    exact Except.noConfusion h
  | ok un =>
    rw [hchk] at h
    dsimp only at h ⊢
    unfold bookLocked at h ⊢
    cases hmark : markSpans wb dev ("C:" ++ bid) (iterMonthRanges sd ed) with
    | error e =>
      rw [hmark] at h
      dsimp only at h
      exact Except.noConfusion h
    | ok wb1 =>
      rw [hmark] at h
      dsimp only at h ⊢
      refine ⟨wb1, rfl, ?_⟩
      exact saveAndValidate_ok_disk wb _ _ env bid r h

/-- A successful `cancel` ends with the cleared workbook on disk. -/
lemma cancel_ok_disk (disk : Workbook) (bookingId : String) (env : SaveEnv)
    (log : Sheet) (bookingRow : Nat) (sd ed : Date)
    (hlog : disk.findSheet "予約ログ" = some log)
    (hfind : (pyRange 2 (log.maxRow + 1)).find?
        (fun r => pyEqOpt (log.cell r 1) (some (.strV bookingId)))
      = some bookingRow)
    (hdates : readLogDates log bookingRow = some (sd, ed))
    (h : (cancel disk bookingId env).outcome = .ok ()) :
    ∃ wb1, clearSpans disk (log.cell bookingRow 6) ("C:" ++ bookingId)
        (iterMonthRanges sd ed) = .ok wb1 ∧
      (cancel disk bookingId env).disk = wb1 := by
  unfold cancel at h ⊢
  rw [hlog] at h ⊢
  dsimp only at h ⊢
  rw [hfind] at h ⊢
  dsimp only at h ⊢
  rw [hdates] at h ⊢
  dsimp only at h ⊢
  cases hcl : clearSpans disk (log.cell bookingRow 6) ("C:" ++ bookingId)
      (iterMonthRanges sd ed) with
  | error e =>
    rw [hcl] at h
    dsimp only at h
    exact Except.noConfusion h
  | ok wb1 =>
    rw [hcl] at h
    dsimp only at h ⊢
    refine ⟨wb1, rfl, ?_⟩
    exact saveAndValidate_ok_disk disk wb1 _ env () () h

/-- A completed clearing loop leaves every sheet of the workbook
    observationally unchanged: each iteration stores back the sheet it
    read, since `clearSpan` is the identity. -/
lemma clearSpans_ok_frame (deviceName : Option Value) (pref : String) :
    ∀ L wb wb', clearSpans wb deviceName pref L = .ok wb' →
      ∀ nm, wb'.findSheet nm = wb.findSheet nm := by
  intro L
  induction L with
  | nil =>
    intro wb wb' h nm
    obtain rfl := Except.ok.inj h
    rfl
  | cons sp rest ih =>
    obtain ⟨ms, me⟩ := sp
    intro wb wb' h nm
    unfold clearSpans at h
    cases h1 : wb.findSheet (monthSheetName ms) <;>
      rw [h1] at h <;> try dsimp only at h
    · exact Except.noConfusion h
    case some sheet =>
      cases h2 : findDeviceRow sheet deviceName <;>
        rw [h2] at h <;> try dsimp only at h
      · exact Except.noConfusion h
      case some row =>
        rw [ih _ wb' h nm, clearSpan_id]
        by_cases hnm : nm = monthSheetName ms
        · subst hnm
          rw [findSheet_setSheet_eq wb _ _ (by rw [h1]; rfl)]
          exact h1.symm
        · exact findSheet_setSheet_ne wb _ _ _ hnm

/-- C3, code bug: a successful `cancel` leaves every sheet of the saved
    document exactly as it found it.  The clearing statement
    `sheet.cell(row=device_row, column=col, value=None)` passes
    `value=None`, which openpyxl's `Worksheet.cell` never assigns, so no
    previously-marked cell is restored to empty — the booking's markers
    survive the cancel on every touched month page. -/
theorem cancel_clears_nothing (disk : Workbook) (bookingId : String)
    (env : SaveEnv)
    (h : (cancel disk bookingId env).outcome = .ok ()) :
    ∀ nm, (cancel disk bookingId env).disk.findSheet nm
      = disk.findSheet nm := by
  unfold cancel at h ⊢
  cases hlog : disk.findSheet "予約ログ" with
  | none =>
    rw [hlog] at h
    dsimp only at h
    exact Except.noConfusion h
  | some log =>
    rw [hlog] at h
    dsimp only at h ⊢
    cases hfind : (pyRange 2 (log.maxRow + 1)).find?
        (fun r => pyEqOpt (log.cell r 1) (some (.strV bookingId))) with
    | none =>
      rw [hfind] at h
      dsimp only at h
      exact Except.noConfusion h
    | some bookingRow =>
      rw [hfind] at h
      dsimp only at h ⊢
      cases hdates : readLogDates log bookingRow with
      | none =>
        rw [hdates] at h
        dsimp only at h
        exact Except.noConfusion h
      | some p =>
        obtain ⟨sd, ed⟩ := p
        rw [hdates] at h
        dsimp only at h ⊢
        cases hcl : clearSpans disk (log.cell bookingRow 6)
            ("C:" ++ bookingId) (iterMonthRanges sd ed) with
        | error e =>
          rw [hcl] at h
          dsimp only at h
          exact Except.noConfusion h
        | ok wb1 =>
          rw [hcl] at h
          dsimp only at h ⊢
          intro nm
          rw [saveAndValidate_ok_disk disk wb1 (expectedSheets sd ed) env
            () () h]
          exact clearSpans_ok_frame (log.cell bookingRow 6)
            ("C:" ++ bookingId) (iterMonthRanges sd ed) disk wb1 hcl nm

/-- C3 witness: a concrete run on the row-8-header scenario page — `book`
    marks the span cell, `cancel` succeeds, and the month page on disk
    after the cancel is the page it started from, marker included. -/
theorem cancel_clears_nothing_witness :
    (book sampleWb "FEデモ機A" dSep10 dSep12 sampleUser "b1" "now"
      goodEnv).outcome = .ok "b1" ∧
    (∃ s1, (book sampleWb "FEデモ機A" dSep10 dSep12 sampleUser "b1" "now"
        goodEnv).disk.findSheet "25年9月" = some s1 ∧
      s1.cell 9 12 = some (.strV "C:b1")) ∧
    (cancel (book sampleWb "FEデモ機A" dSep10 dSep12 sampleUser "b1" "now"
      goodEnv).disk "b1" goodEnv).outcome = .ok () ∧
    (cancel (book sampleWb "FEデモ機A" dSep10 dSep12 sampleUser "b1" "now"
      goodEnv).disk "b1" goodEnv).disk.findSheet "25年9月"
      = (book sampleWb "FEデモ機A" dSep10 dSep12 sampleUser "b1" "now"
        goodEnv).disk.findSheet "25年9月" := by
  refine ⟨by decide, ⟨_, rfl, by decide⟩, by decide, ?_⟩
  exact cancel_clears_nothing
    (book sampleWb "FEデモ機A" dSep10 dSep12 sampleUser "b1" "now"
      goodEnv).disk "b1" goodEnv (by decide) "25年9月"

end ExcelOps
